import Mathlib

/-!
Verification of the reconciliation core of `synchronization.py` (OpenProject →
Google Calendar task synchronization).  The Python functions
`parse_workpackages`, `parse_events`, `str_to_date`, `wp_to_event`,
`to_create`, `to_delete`, `may_update`, `synchronize_wps` and `save_logs`
are shallowly embedded below.  Machine strings are modelled by Lean `String`
(working internally over `List Char`), Python `None`-able values by `Option`,
raised exceptions by `Option`/`Except`, and the external Google-Calendar
service by a record of response functions (each call returns either success
or an error string, which is exactly how the calling code observes it).
-/

namespace CalSync

/-! ## Models of the Python string primitives used by the source -/

/-- Characters removed by Python `str.strip()` with no argument
(ASCII whitespace; the source never feeds other Unicode space). -/
def pySpace (c : Char) : Bool :=
  c == ' ' || c == '\t' || c == '\n' || c == '\r' || c == '\x0b' || c == '\x0c'

/-- Remove trailing `pySpace` characters. -/
def dropRightSpaces (l : List Char) : List Char :=
  (l.reverse.dropWhile pySpace).reverse

/-- Python `s.strip()` over the character list. -/
def pyStrip (l : List Char) : List Char :=
  dropRightSpaces (l.dropWhile pySpace)

/-- Python `s.strip()` on `String`. -/
def pyStripS (s : String) : String :=
  ⟨pyStrip s.data⟩

/-- Python `s.rstrip(c)` for a single character `c`: drop every trailing `c`. -/
def pyRstrip (c : Char) (l : List Char) : List Char :=
  (l.reverse.dropWhile (fun x => x == c)).reverse

/-- Python `s.split(sep)` for a one-character separator `sep`
(always returns a non-empty list of segments). -/
def pySplitChar (sep : Char) : List Char → List (List Char)
  | [] => [[]]
  | c :: cs =>
    if c = sep then [] :: pySplitChar sep cs
    else
      match pySplitChar sep cs with
      | [] => [[c]]
      | s :: rest => (c :: s) :: rest

/-- Python `s.splitlines()` restricted to the line breaks the source can
produce or meet here (`\n`, `\r`, `\r\n`).  Splitting on `\n` and then on
`\r` yields, after the caller's strip-and-drop-blank filter, the same lines
as `str.splitlines` for these breaks (a lone `\r\n` contributes one extra
empty segment, which that filter removes). -/
def pyLinesRaw (l : List Char) : List (List Char) :=
  (pySplitChar '\n' l).flatMap (pySplitChar '\r')

/-- One step of the comprehension filter: keep the stripped line when it is
non-blank. -/
def stripFilter (l : List Char) : Option (List Char) :=
  let t := pyStrip l
  if t = [] then none else some t

/-- The list comprehension
`[line.strip() for line in raw.splitlines() if line.strip()]`. -/
def pyLines (s : String) : List (List Char) :=
  (pyLinesRaw s.data).filterMap stripFilter

/-- Python `s.startswith(p)`. -/
def pyStartsWith (l p : List Char) : Bool :=
  p.isPrefixOf l

/-- Python `pat in s` (substring test). -/
def hasSub (pat : List Char) : List Char → Bool
  | [] => pat.isPrefixOf ([] : List Char)
  | c :: t => pat.isPrefixOf (c :: t) || hasSub pat t

/-- Substring test on `String`s. -/
def hasSubS (s pat : String) : Bool :=
  hasSub pat.data s.data

/-- Fuel-driven core of Python `s.replace(old, new)` (the fuel starts at the
length of `s`, which suffices because every step consumes at least one
character when `old` is non-empty). -/
def pyReplaceCore (old new : List Char) : Nat → List Char → List Char
  | _, [] => []
  | 0, l => l
  | fuel + 1, c :: cs =>
    if old.isPrefixOf (c :: cs) then
      new ++ pyReplaceCore old new fuel ((c :: cs).drop old.length)
    else
      c :: pyReplaceCore old new fuel cs

/-- Python `s.replace(old, new)`.  The source only calls it with the
non-empty label strings, so the degenerate `old = ""` case is left as the
identity. -/
def pyReplace (l old new : List Char) : List Char :=
  if old = [] then l else pyReplaceCore old new l.length l

/-- Python `s.replace(old, new)` on `String`. -/
def pyReplaceS (s old new : String) : String :=
  ⟨pyReplace s.data old.data new.data⟩

/-- Decimal digit test. -/
def isDigitCh (c : Char) : Bool :=
  48 ≤ c.toNat && c.toNat ≤ 57

/-- Numeric value of a decimal digit character. -/
def digitVal (c : Char) : Nat :=
  c.toNat - 48

/-- Value of a non-empty all-digit character list, `none` otherwise. -/
def digitsVal? (l : List Char) : Option Nat :=
  if l = [] then none
  else if l.all isDigitCh then
    some (l.foldl (fun a c => a * 10 + digitVal c) 0)
  else none

/-- Python `int(s)` on a string: optional surrounding whitespace, optional
sign, then decimal digits (digit-group underscores are not modelled; the
source never produces them). -/
def pyInt? (s : String) : Option Int :=
  let t := pyStrip s.data
  if t.headD ' ' = '-' then (digitsVal? t.tail).map (fun n => -(n : Int))
  else if t.headD ' ' = '+' then (digitsVal? t.tail).map (fun n => (n : Int))
  else (digitsVal? t).map (fun n => (n : Int))

/-- Python `int(float(s))` for decimal notation `[sign]digits[.digits]`:
the fractional part is dropped, truncating toward zero (exponent/`inf`/`nan`
notation is not modelled; the source only meets second fields). -/
def pyFloatInt? (s : String) : Option Int :=
  let t := pyStrip s.data
  let signed : Int × List Char :=
    match t with
    | '-' :: r => (-1, r)
    | '+' :: r => (1, r)
    | r => (1, r)
  match pySplitChar '.' signed.2 with
  | [ip] =>
    if ip ≠ [] ∧ ip.all isDigitCh then
      some (signed.1 * (ip.foldl (fun a c => a * 10 + digitVal c) 0))
    else none
  | [ip, fp] =>
    if (ip ≠ [] ∨ fp ≠ []) ∧ ip.all isDigitCh ∧ fp.all isDigitCh then
      some (signed.1 * (ip.foldl (fun a c => a * 10 + digitVal c) 0))
    else none
  | _ => none

/-- The decimal digit character for `n < 10`. -/
def digitCh (n : Nat) : Char :=
  Char.ofNat (48 + n)

/-- Fuel-driven digit accumulator for decimal printing. -/
def natDigitsCore : Nat → Nat → List Char → List Char
  | 0, _, acc => acc
  | fuel + 1, n, acc =>
    if n = 0 then acc else natDigitsCore fuel (n / 10) (digitCh (n % 10) :: acc)

/-- Decimal digits of a natural number (`0` prints as `"0"`). -/
def natDigits (n : Nat) : List Char :=
  if n = 0 then ['0'] else natDigitsCore (n + 1) n []

/-- Decimal printing of a natural number. -/
def natRepr (n : Nat) : String :=
  ⟨natDigits n⟩

/-- Python `str(i)` / f-string interpolation of an `int`. -/
def intRepr (i : Int) : String :=
  if i < 0 then "-" ++ natRepr (-i).toNat else natRepr i.toNat

/-- Python truthiness of an optional string (`None` and `""` are falsy). -/
def pyTruthy : Option String → Bool
  | none => false
  | some s => s ≠ ""

/-- Python `a or b` where `a` is an optional string and `b` a string. -/
def pyOrS (a : Option String) (b : String) : String :=
  match a with
  | none => b
  | some s => if s = "" then b else s

/-- Python `str(x)` where `x` is `None` or a string (used by `save_logs` on
error-list entries). -/
def pyStrOpt : Option String → String
  | none => "None"
  | some s => s

/-! ## Model of `datetime.datetime` as used by the source -/

/-- A naive `datetime.datetime` value. -/
structure Datetime where
  year : Int
  month : Int
  day : Int
  hour : Int
  minute : Int
  second : Int
  microsecond : Int
deriving DecidableEq, Repr

/-- Gregorian leap-year test. -/
def isLeap (y : Int) : Bool :=
  (y % 4 == 0 && y % 100 != 0) || y % 400 == 0

/-- Days in a month. -/
def daysInMonth (y m : Int) : Int :=
  if m = 2 then (if isLeap y then 29 else 28)
  else if m = 4 ∨ m = 6 ∨ m = 9 ∨ m = 11 then 30
  else 31

/-- The range checks performed by the `datetime` constructor. -/
def validDatetime (y mo d h mi s us : Int) : Bool :=
  1 ≤ y && y ≤ 9999 && 1 ≤ mo && mo ≤ 12 && 1 ≤ d && d ≤ daysInMonth y mo &&
  0 ≤ h && h ≤ 23 && 0 ≤ mi && mi ≤ 59 && 0 ≤ s && s ≤ 59 &&
  0 ≤ us && us ≤ 999999

/-- `datetime(y, mo, d, h, mi, s, us)`: `none` models the raised
`ValueError` on an out-of-range component. -/
def mkDatetime? (y mo d h mi s us : Int) : Option Datetime :=
  if validDatetime y mo d h mi s us then some ⟨y, mo, d, h, mi, s, us⟩ else none

/-- `datetime(*args)` for the argument counts reachable from
`str_to_date` (`none` models a `TypeError` on any other count). -/
def applyDatetime : List Int → Option Datetime
  | [y, mo, d] => mkDatetime? y mo d 0 0 0 0
  | [y, mo, d, h] => mkDatetime? y mo d h 0 0 0
  | [y, mo, d, h, mi] => mkDatetime? y mo d h mi 0 0
  | [y, mo, d, h, mi, s] => mkDatetime? y mo d h mi s 0
  | [y, mo, d, h, mi, s, us] => mkDatetime? y mo d h mi s us
  | _ => none

/-- `t + timedelta(hours=1)`: carry through day, month and year; `none`
models the `OverflowError` past year 9999. -/
def addOneHour (t : Datetime) : Option Datetime :=
  if t.hour + 1 ≤ 23 then some { t with hour := t.hour + 1 }
  else if t.day + 1 ≤ daysInMonth t.year t.month then
    some { t with hour := 0, day := t.day + 1 }
  else if t.month + 1 ≤ 12 then
    some { t with hour := 0, day := 1, month := t.month + 1 }
  else if t.year + 1 ≤ 9999 then
    some { t with hour := 0, day := 1, month := 1, year := t.year + 1 }
  else none

/-- Zero-padded decimal of width `w`. -/
def padNat (w : Nat) (n : Nat) : String :=
  ⟨List.replicate (w - (natDigits n).length) '0' ++ natDigits n⟩

/-- `d.date().isoformat()` (`YYYY-MM-DD`). -/
def fmtDate (t : Datetime) : String :=
  padNat 4 t.year.toNat ++ "-" ++ padNat 2 t.month.toNat ++ "-" ++ padNat 2 t.day.toNat

/-- `d.time().isoformat()` (`HH:MM:SS`, with `.ffffff` only when the
microsecond field is non-zero). -/
def fmtTime (t : Datetime) : String :=
  padNat 2 t.hour.toNat ++ ":" ++ padNat 2 t.minute.toNat ++ ":" ++ padNat 2 t.second.toNat ++
    (if t.microsecond ≠ 0 then "." ++ padNat 6 t.microsecond.toNat else "")

/-! ## Data model -/

/-- A canonical work package (`tmp` built by `parse_workpackages`). -/
structure Task where
  wp_id : Int
  subject : String
  description : String
  parent : String
  assignee : String
  due_date : String
  due_hour : String
  updated_at : String
deriving DecidableEq, Repr

/-- A canonical calendar event (`tmp` built by `parse_events`). -/
structure Event where
  event_id : String
  wp_id : Int
  subject : String
  assignee : Option String
  updated_at : Option String
  due_date : Option String
  due_hour : Option String
deriving DecidableEq, Repr

/-- A raw OpenProject work-package record, restricted to the fields the
source reads.  `none` models a missing key (or a missing nested link);
defaulted `.get` accesses are modelled by the defaulted value directly. -/
structure RawWP where
  id : Option Int
  subject : String
  description_raw : Option String
  description_html : String
  parent_href : Option String
  parent_title : Option String
  assignee_title : Option String
  dueDate : Option String
  customField19 : Option String
  createdAt : String
  updatedAt : String
deriving DecidableEq, Repr

/-- The `end` field of a raw calendar event.  `dt (some d)` models a truthy
`end.dateTime` string that `isoparse` accepts, carried by its wall-clock
components (`astimezone().isoformat()` followed by `isoparse` preserves
them); `dt none` models a truthy `end.dateTime` string `isoparse` rejects;
`dateOnly` models an all-day event; `absent` a missing/falsy `end`. -/
inductive RawEnd where
  | dt : Option Datetime → RawEnd
  | dateOnly : String → RawEnd
  | absent : RawEnd
deriving DecidableEq, Repr

/-- A raw Google-Calendar event record, restricted to the fields the source
reads; `summary` and `description` are taken after the source's
`or ''` defaulting. -/
structure RawEvent where
  event_id : String
  summary : String
  description : String
  rend : RawEnd
deriving DecidableEq, Repr

/-! ## Task Parser (`parse_workpackages`) -/

/-- The pre-`try` skip of `parse_workpackages`: drop the record when the raw
description is `None` or its first `split('\n')` segment is `"!!!"`. -/
def parse_wp_skip (r : RawWP) : Bool :=
  match r.description_raw with
  | none => true
  | some s => (pySplitChar '\n' s.data).headD [] = ("!!!").data

/-- Python dict assignment `m[k] = v`: replace in place or append. -/
def dinsert {α : Type} (k : Int) (v : α) : List (Int × α) → List (Int × α)
  | [] => [(k, v)]
  | (k', v') :: rest => if k' = k then (k, v) :: rest else (k', v') :: dinsert k v rest

/-- Python dict lookup `m[k]` (keys are unique in a dict, so first match). -/
def dlookup {α : Type} (k : Int) : List (Int × α) → Option α
  | [] => none
  | (k', v) :: rest => if k' = k then some v else dlookup k rest

/-- The `try` body of `parse_workpackages` for one record; `.error` models a
raised exception (with its message). -/
def parse_wp_record (r : RawWP) : Except String Task := do
  match r.id with
  | none => throw ("KeyError: id")
  | some i =>
    let subject := pyStripS r.subject
    let description := r.description_html
    let parent :=
      if pyTruthy r.parent_href ∧ pyTruthy r.parent_title then
        String.mk
            ((pySplitChar '/' (pyRstrip '/' (r.parent_href.getD "").data)).getLastD [])
          ++ ":" ++ r.parent_title.getD ""
      else ("No parent")
    let assignee := r.assignee_title.getD ("Não designado a nenhuma pessoa")
    let dd ←
      if pyTruthy r.dueDate then
        pure (r.dueDate.getD "", pyOrS r.customField19 ("00:00:00"))
      else
        let created := r.createdAt
        if 'T' ∈ created.data then
          match pySplitChar 'T' created.data with
          | [d, t] => pure (String.mk d, String.mk (pyRstrip 'Z' t))
          | _ => throw ("ValueError: unpack")
        else
          pure (created, ("00:00:00"))
    pure { wp_id := i, subject := subject, description := description,
           parent := parent, assignee := assignee,
           due_date := dd.1, due_hour := dd.2, updated_at := r.updatedAt }

/-- One iteration of the shared parsing loop: skip, or parse and key the
result, or record `(record, error)` and continue. -/
def batchStep {α β : Type} (skip : α → Bool) (prs : α → Except String β)
    (key : β → Int) (acc : List (Int × β) × List (α × String)) (r : α) :
    List (Int × β) × List (α × String) :=
  if skip r then acc
  else
    match prs r with
    | .ok b => (dinsert (key b) b acc.1, acc.2)
    | .error e => (acc.1, acc.2 ++ [(r, e)])

/-- Shared shape of both parsing loops. -/
def parseBatch {α β : Type} (skip : α → Bool) (prs : α → Except String β)
    (key : β → Int) (rs : List α) : List (Int × β) × List (α × String) :=
  rs.foldl (batchStep skip prs key) ([], [])

/-- `parse_workpackages`: canonical task mapping plus error list. -/
def parse_workpackages (rs : List RawWP) : List (Int × Task) × List (RawWP × String) :=
  parseBatch parse_wp_skip parse_wp_record Task.wp_id rs

/-! ## Event Parser (`parse_events`) -/

/-- Label-scanning state over the description lines. -/
structure ScanState where
  assignee : Option String
  updated_at : Option String
  due_hour : Option String
deriving DecidableEq, Repr

/-- One step of the label scan over a (stripped, non-blank) line. -/
def scanLine (st : ScanState) (line : List Char) : ScanState :=
  if pyStartsWith line ("Assignee:").data then
    { st with assignee := some ⟨pyStrip (pyReplace line ("Assignee:").data [])⟩ }
  else if pyStartsWith line ("UpdatedAt:").data then
    { st with updated_at := some ⟨pyStrip (pyReplace line ("UpdatedAt:").data [])⟩ }
  else if pyStartsWith line ("DueHour:").data then
    { st with due_hour := some ⟨pyStrip (pyReplace line ("DueHour:").data [])⟩ }
  else st

/-- The `try` body of `parse_events` for one record. -/
def parse_event_record (e : RawEvent) : Except String Event := do
  let summary := e.summary
  if ¬ ':' ∈ summary.data then
    throw ("ValueError: Summary inválido")
  else
    let before := summary.data.takeWhile (fun c => c ≠ ':')
    let after := (summary.data.dropWhile (fun c => c ≠ ':')).tail
    match pyInt? ⟨pyStrip before⟩ with
    | none => throw ("ValueError: WP ID não é inteiro")
    | some wp_id =>
      let subject := String.mk (pyStrip after)
      let st := (pyLines e.description).foldl scanLine ⟨none, none, none⟩
      match e.rend with
      | .dt none => throw ("ValueError: isoparse")
      | .dt (some d) =>
          pure { event_id := e.event_id, wp_id := wp_id, subject := subject,
                 assignee := st.assignee, updated_at := st.updated_at,
                 due_date := some (fmtDate d),
                 due_hour := some (pyOrS st.due_hour (fmtTime d)) }
      | .dateOnly s =>
          pure { event_id := e.event_id, wp_id := wp_id, subject := subject,
                 assignee := st.assignee, updated_at := st.updated_at,
                 due_date := some s,
                 due_hour := some (pyOrS st.due_hour ("00:00:00")) }
      | .absent =>
          pure { event_id := e.event_id, wp_id := wp_id, subject := subject,
                 assignee := st.assignee, updated_at := st.updated_at,
                 due_date := none, due_hour := st.due_hour }

/-- `parse_events`: canonical event mapping plus error list. -/
def parse_events (es : List RawEvent) : List (Int × Event) × List (RawEvent × String) :=
  parseBatch (fun _ => false) parse_event_record Event.wp_id es

/-! ## Task→Event Mapper (`wp_to_event`, `str_to_date`) -/

/-- The hour-normalization block of `str_to_date`: split on `:` and pad to
`[hour, minute, second]` (seconds truncated through `float`); an empty
string and a four-or-more-way split both yield `[0, 0, 0]`; `none` models a
raised conversion error. -/
def hour_parts_of (due_hour : String) : Option (List Int) :=
  if due_hour ≠ "" then
    match pySplitChar ':' due_hour.data with
    | [a, b, c] => do
        let x ← pyInt? ⟨a⟩
        let y ← pyInt? ⟨b⟩
        let z ← pyFloatInt? ⟨c⟩
        pure [x, y, z]
    | [a, b] => do
        let x ← pyInt? ⟨a⟩
        let y ← pyInt? ⟨b⟩
        pure [x, y, 0]
    | [a] => do
        let x ← pyInt? ⟨a⟩
        pure [x, 0, 0]
    | _ => pure ([0, 0, 0] : List Int)
  else pure ([0, 0, 0] : List Int)

/-- `str_to_date(due_date, due_hour)`: split the date on `-`, normalize the
hour string to three components, and build the `datetime`; `none` models
any raised exception. -/
def str_to_date (due_date due_hour : String) : Option Datetime := do
  let date_parts ← (pySplitChar '-' due_date.data).mapM (fun l => pyInt? ⟨l⟩)
  let hour_parts ← hour_parts_of due_hour
  applyDatetime (date_parts ++ hour_parts)

/-- The event body handed to the calendar service.  `start`/`end` are kept
as wall-clock components: `astimezone().isoformat()` serializes exactly
those components (plus an offset) and `isoparse` recovers them. -/
structure EventBody where
  summary : String
  description : String
  startDT : Datetime
  endDT : Datetime
  remindersUseDefault : Bool
  reminderOverrides : List (String × Int)
deriving DecidableEq, Repr

/-- `wp_to_event`: build the event body for a canonical task; `none` models
an exception escaping from `str_to_date` or the `timedelta` addition. -/
def wp_to_event (wp : Task) : Option EventBody := do
  let event_start ← str_to_date wp.due_date wp.due_hour
  let event_finish ← addOneHour event_start
  pure { summary := intRepr wp.wp_id ++ ":" ++ wp.subject,
         description :=
           wp.description ++ "\n" ++
           ("Parent: " ++ wp.parent) ++ "\n" ++
           ("Assignee: " ++ wp.assignee) ++ "\n" ++
           ("UpdatedAt: " ++ wp.updated_at) ++ "\n" ++
           ("DueHour: " ++ wp.due_hour),
         startDT := event_start,
         endDT := event_finish,
         remindersUseDefault := false,
         reminderOverrides := [(("popup"), 1440), (("popup"), 30)] }

/-- Reading back an inserted body from the calendar: summary and
description are stored verbatim, and the `end` timestamp round-trips its
wall-clock components through `isoformat`/`isoparse`. -/
def event_body_to_raw (eid : String) (b : EventBody) : RawEvent :=
  { event_id := eid, summary := b.summary, description := b.description,
    rend := RawEnd.dt (some b.endDT) }

/-! ## Action Executor (`to_create`, `to_delete`, `may_update`) -/

/-- One call to the calendar service. -/
inductive ApiCall where
  | insert : EventBody → ApiCall
  | delete : String → ApiCall
  | update : String → EventBody → ApiCall
deriving DecidableEq, Repr

/-- The calendar service, observed exactly as the source observes it: each
call either succeeds (`none`) or fails, and a failure is seen only as the
string `str(error)` (`some msg`). -/
structure Service where
  insertRes : EventBody → Option String
  deleteRes : String → Option String
  updateRes : String → EventBody → Option String

/-- `to_create(wp, ...)`: map the task (outside the `try`, so a mapping
exception escapes, outer `none`) and insert; the call's failure is caught
and returned as a string (inner `Option`), success returns `None`.  The
call made is recorded alongside. -/
def to_create_action (wp : Task) (svc : Service) : Option (Option String × List ApiCall) := do
  let event ← wp_to_event wp
  pure (svc.insertRes event, [ApiCall.insert event])

/-- `to_delete(parsed_event, ...)`: delete by `event_id`; a failure is
caught and returned as a string. -/
def to_delete_action (ev : Event) (svc : Service) : Option String × List ApiCall :=
  (svc.deleteRes ev.event_id, [ApiCall.delete ev.event_id])

/-- `may_update(wp, parsed_event, ...)`: update only when the task's
`updated_at` differs from the event's decoded token (Python `!=` between a
string and an optional string); the mapping happens outside the `try`
(outer `none` on exception), the update failure is caught and returned as
a string. -/
def may_update_action (wp : Task) (ev : Event) (svc : Service) :
    Option (Option String × List ApiCall) :=
  if some wp.updated_at ≠ ev.updated_at then do
    let tmp ← wp_to_event wp
    pure (svc.updateRes ev.event_id tmp, [ApiCall.update ev.event_id tmp])
  else
    pure (none, [])

/-! ## Reconciliation Engine (`synchronize_wps`) -/

/-- Python `set(keys)` (iteration order of a hash set is unspecified; the
deduplicated key list stands for it). -/
def pySet (l : List Int) : List Int :=
  l.dedup

/-- Python `a.difference(b)` on the modelled sets. -/
def pySetDiff (a b : List Int) : List Int :=
  a.filter (fun i => ¬ i ∈ b)

/-- Python `a.intersection(b)` on the modelled sets. -/
def pySetInter (a b : List Int) : List Int :=
  a.filter (fun i => i ∈ b)

/-- Run one action per id, collecting the per-id error entries and the
calls made; `none` models an exception escaping the loop. -/
def runActs (f : Int → Option (Option String × List ApiCall)) :
    List Int → Option (List (Option String × List ApiCall))
  | [] => some []
  | i :: is => do
      let r ← f i
      let rs ← runActs f is
      pure (r :: rs)

/-- The loop body for a `to_create_set` id: `parsed_wps[wp_id]` then
`to_create`. -/
def createStep (wps : List (Int × Task)) (svc : Service) (i : Int) :
    Option (Option String × List ApiCall) := do
  let wp ← dlookup i wps
  to_create_action wp svc

/-- The loop body for a `to_delete_set` id. -/
def deleteStep (evs : List (Int × Event)) (svc : Service) (i : Int) :
    Option (Option String × List ApiCall) := do
  let ev ← dlookup i evs
  pure (to_delete_action ev svc)

/-- The loop body for a `may_update_set` id. -/
def updateStep (wps : List (Int × Task)) (evs : List (Int × Event)) (svc : Service)
    (i : Int) : Option (Option String × List ApiCall) := do
  let wp ← dlookup i wps
  let ev ← dlookup i evs
  may_update_action wp ev svc

/-- `synchronize_wps`: partition the two key sets, run the three action
loops in order, and return `[wp_ids, error]` (plus the trace of calls the
run made); `none` models an uncaught exception aborting the pass. -/
def synchronize_wps (parsed_wps : List (Int × Task)) (parsed_events : List (Int × Event))
    (svc : Service) :
    Option (List (List Int) × List (List (Option String)) × List ApiCall) := do
  let wps_on_openproject := pySet (parsed_wps.map Prod.fst)
  let wps_on_calendar := pySet (parsed_events.map Prod.fst)
  let to_create_set := pySetDiff wps_on_openproject wps_on_calendar
  let to_delete_set := pySetDiff wps_on_calendar wps_on_openproject
  let may_update_set := pySetInter wps_on_calendar wps_on_openproject
  let cs ← runActs (createStep parsed_wps svc) to_create_set
  let ds ← runActs (deleteStep parsed_events svc) to_delete_set
  let us ← runActs (updateStep parsed_wps parsed_events svc) may_update_set
  pure ([to_create_set, to_delete_set, may_update_set],
        ([cs.map Prod.fst, ds.map Prod.fst, us.map Prod.fst],
         cs.flatMap Prod.snd ++ ds.flatMap Prod.snd ++ us.flatMap Prod.snd))

/-! ## Outcome Logger (`save_logs`) -/

/-- `save_logs`: the two payloads appended to the sheet (first the
`errors` page, then the `actions` page), given the pass timestamp
`datetime.now().isoformat()` as a parameter; `none` models an `IndexError`
on a malformed argument. -/
def save_logs (wps : List (List Int)) (errors : List (List (Option String)))
    (log_time : String) :
    Option (List (List String) × List (List String)) := do
  let e0 ← errors.get? 0
  let e1 ← errors.get? 1
  let e2 ← errors.get? 2
  let to_create_errors := ("to_create_errors") :: e0.map pyStrOpt
  let to_delete_errors := ("to_delete_errors") :: e1.map pyStrOpt
  let may_update_errors := ("may_update_errors") :: e2.map pyStrOpt
  let errorsValues := [[log_time], to_create_errors, to_delete_errors, may_update_errors]
  let c ← wps.get? 0
  let d ← wps.get? 1
  let u ← wps.get? 2
  let to_create_row := ("to_create") :: c.map intRepr
  let to_delete_row := ("to_delete") :: d.map intRepr
  let may_update_row := ("may_update") :: u.map intRepr
  let actionsValues := [[log_time], to_create_row, to_delete_row, may_update_row]
  pure (errorsValues, actionsValues)

/-! ## Lemmas about the string primitives -/

lemma pySplitChar_ne_nil (sep : Char) (l : List Char) : pySplitChar sep l ≠ [] := by
  cases l with
  | nil => simp [pySplitChar]
  | cons c cs =>
    simp only [pySplitChar]
    by_cases h : c = sep
    · simp [h]
    · simp only [if_neg h]
      cases pySplitChar sep cs <;> simp

lemma pySplitChar_append (sep : Char) (a b : List Char) :
    pySplitChar sep (a ++ sep :: b) = pySplitChar sep a ++ pySplitChar sep b := by
  induction a with
  | nil => simp [pySplitChar]
  | cons c cs ih =>
    by_cases h : c = sep
    · subst h
      simp [pySplitChar, ih]
    · simp only [List.cons_append, pySplitChar, if_neg h, List.append_eq]
      rw [ih]
      cases hcs : pySplitChar sep cs with
      | nil => exact absurd hcs (pySplitChar_ne_nil sep cs)
      | cons s rest => simp

lemma pySplitChar_of_not_mem (sep : Char) (l : List Char) (h : sep ∉ l) :
    pySplitChar sep l = [l] := by
  induction l with
  | nil => rfl
  | cons c cs ih =>
    have h1 : c ≠ sep := fun e => h (by simp [e])
    have h2 : sep ∉ cs := fun m => h (List.mem_cons_of_mem _ m)
    simp [pySplitChar, h1, ih h2]

lemma length_dropWhile_le (p : Char → Bool) (l : List Char) :
    (l.dropWhile p).length ≤ l.length := by
  induction l with
  | nil => simp
  | cons c cs ih =>
    rw [List.dropWhile_cons]
    by_cases h : p c
    · simp only [if_pos h]
      exact le_trans ih (by simp)
    · simp [h]

lemma dropWhile_eq_of_length (p : Char → Bool) (l : List Char)
    (h : (l.dropWhile p).length = l.length) : l.dropWhile p = l := by
  cases l with
  | nil => rfl
  | cons c cs =>
    rw [List.dropWhile_cons] at h ⊢
    by_cases hp : p c
    · rw [if_pos hp] at h
      have := length_dropWhile_le p cs
      simp at h
      omega
    · simp [hp]

lemma dropWhile_of_all_neg (p : Char → Bool) (l : List Char)
    (h : ∀ c ∈ l, p c = false) : l.dropWhile p = l := by
  cases l with
  | nil => rfl
  | cons c cs =>
    rw [List.dropWhile_cons, if_neg (by simp [h c (by simp)])]

lemma dropRightSpaces_length_le (l : List Char) :
    (dropRightSpaces l).length ≤ l.length := by
  unfold dropRightSpaces
  calc (l.reverse.dropWhile pySpace).reverse.length
      = (l.reverse.dropWhile pySpace).length := by simp
    _ ≤ l.reverse.length := length_dropWhile_le _ _
    _ = l.length := by simp

lemma dropRightSpaces_eq_of_length (l : List Char)
    (h : (dropRightSpaces l).length = l.length) : dropRightSpaces l = l := by
  unfold dropRightSpaces at h ⊢
  have h2 : (l.reverse.dropWhile pySpace).length = l.reverse.length := by
    simpa using h
  rw [dropWhile_eq_of_length _ _ h2, List.reverse_reverse]

lemma pyStrip_parts (l : List Char) (h : pyStrip l = l) :
    l.dropWhile pySpace = l ∧ dropRightSpaces l = l := by
  unfold pyStrip at h
  have hlen : l.length ≤ (l.dropWhile pySpace).length := by
    calc l.length = (dropRightSpaces (l.dropWhile pySpace)).length := by rw [h]
      _ ≤ (l.dropWhile pySpace).length := dropRightSpaces_length_le _
  have hdw : l.dropWhile pySpace = l :=
    dropWhile_eq_of_length _ _ (le_antisymm (length_dropWhile_le _ _) hlen)
  rw [hdw] at h
  exact ⟨hdw, h⟩

lemma dropRightSpaces_append_of (x b : List Char) (hb : dropRightSpaces b = b)
    (hne : b ≠ []) : dropRightSpaces (x ++ b) = x ++ b := by
  have hb' : b.reverse.dropWhile pySpace = b.reverse := by
    have hc := congrArg List.reverse hb
    simp only [dropRightSpaces, List.reverse_reverse] at hc
    exact hc
  obtain ⟨h, t, hbt⟩ : ∃ h t, b.reverse = h :: t := by
    cases hbr : b.reverse with
    | nil =>
      exact absurd (by simpa using congrArg List.reverse hbr) hne
    | cons h t => exact ⟨h, t, rfl⟩
  have hh : pySpace h = false := by
    by_contra hc
    rw [Bool.not_eq_false] at hc
    rw [hbt, List.dropWhile_cons, if_pos hc] at hb'
    have := length_dropWhile_le pySpace t
    rw [hb'] at this
    simp at this
  have key : (x ++ b).reverse.dropWhile pySpace = (x ++ b).reverse := by
    rw [List.reverse_append, hbt, List.cons_append, List.dropWhile_cons, if_neg (by simp [hh])]
  unfold dropRightSpaces
  rw [key, List.reverse_reverse]

lemma pyStrip_cons_space (a : List Char) (ha : pyStrip a = a) :
    pyStrip (' ' :: a) = a := by
  obtain ⟨h1, h2⟩ := pyStrip_parts a ha
  unfold pyStrip
  rw [List.dropWhile_cons, if_pos (by decide), h1, h2]

lemma pyStrip_label_line (lit a : List Char) (hlit : lit ≠ [])
    (hh : pySpace (lit.headD ' ') = false) (ha : pyStrip a = a) (hane : a ≠ []) :
    pyStrip (lit ++ ' ' :: a) = lit ++ ' ' :: a := by
  obtain ⟨_, h2⟩ := pyStrip_parts a ha
  unfold pyStrip
  have hleft : (lit ++ ' ' :: a).dropWhile pySpace = lit ++ ' ' :: a := by
    cases lit with
    | nil => exact absurd rfl hlit
    | cons c t =>
      rw [List.cons_append, List.dropWhile_cons, if_neg (by simp_all)]
  rw [hleft]
  have hsplit : lit ++ ' ' :: a = (lit ++ [' ']) ++ a := by simp
  rw [hsplit]
  exact dropRightSpaces_append_of _ _ h2 hane

lemma pyStrip_of_no_space (l : List Char) (h : ∀ c ∈ l, pySpace c = false) :
    pyStrip l = l := by
  unfold pyStrip dropRightSpaces
  rw [dropWhile_of_all_neg _ _ h,
    dropWhile_of_all_neg _ _ (fun c hc => h c (by simpa using hc)),
    List.reverse_reverse]

lemma isPrefixOf_self_append (l r : List Char) : l.isPrefixOf (l ++ r) = true := by
  induction l with
  | nil => simp [List.isPrefixOf]
  | cons c cs ih => simp [List.isPrefixOf_cons₂, ih]

lemma isPrefixOf_ne_head (a b : Char) (l m : List Char) (h : a ≠ b) :
    (a :: l).isPrefixOf (b :: m) = false := by
  simp [List.isPrefixOf_cons₂, h]

lemma hasSub_cons_false (pat : List Char) (c : Char) (t : List Char)
    (h1 : pat.isPrefixOf (c :: t) = false) (h2 : hasSub pat t = false) :
    hasSub pat (c :: t) = false := by
  simp [hasSub, h1, h2]

lemma replaceCore_no_occ (old new : List Char) (fuel : Nat) :
    ∀ l, hasSub old l = false → pyReplaceCore old new fuel l = l := by
  induction fuel with
  | zero =>
    intro l _
    cases l <;> rfl
  | succ f ih =>
    intro l h
    cases l with
    | nil => rfl
    | cons c cs =>
      rw [hasSub] at h
      rw [Bool.or_eq_false_iff] at h
      simp only [pyReplaceCore, h.1, Bool.false_eq_true, if_false]
      rw [ih cs h.2]

lemma pyReplace_label (lit rest : List Char) (hlit : lit ≠ [])
    (hno : hasSub lit rest = false) : pyReplace (lit ++ rest) lit [] = rest := by
  unfold pyReplace
  rw [if_neg hlit]
  obtain ⟨c, ct, hc⟩ : ∃ c ct, lit = c :: ct := by
    cases lit with
    | nil => exact absurd rfl hlit
    | cons c ct => exact ⟨c, ct, rfl⟩
  subst hc
  simp only [List.cons_append, List.length_cons, pyReplaceCore, List.append_eq]
  rw [if_pos (by rw [← List.cons_append]; exact isPrefixOf_self_append (c :: ct) rest)]
  have hdrop : List.drop (ct.length + 1) (c :: (ct ++ rest)) = rest := by
    rw [List.drop_succ_cons, List.drop_left]
  simp only [List.length_cons, List.append_eq] at hdrop ⊢
  rw [hdrop, List.nil_append]
  exact replaceCore_no_occ _ _ _ rest hno

/-! ## Decimal printing round-trips through `int()` -/

lemma natDigitsCore_acc (fuel : Nat) : ∀ (n : Nat) (acc : List Char),
    natDigitsCore fuel n acc = natDigitsCore fuel n [] ++ acc := by
  induction fuel with
  | zero => intro n acc; simp [natDigitsCore]
  | succ f ih =>
    intro n acc
    simp only [natDigitsCore]
    by_cases h : n = 0
    · simp [h]
    · rw [if_neg h, if_neg h, ih (n / 10) _, ih (n / 10) [digitCh (n % 10)]]
      simp

lemma natDigitsCore_fuel (n : Nat) : ∀ f1 f2 : Nat, n < f1 → n < f2 →
    natDigitsCore f1 n [] = natDigitsCore f2 n [] := by
  induction n using Nat.strong_induction_on with
  | _ n ih =>
    intro f1 f2 h1 h2
    cases f1 with
    | zero => omega
    | succ g1 =>
      cases f2 with
      | zero => omega
      | succ g2 =>
        simp only [natDigitsCore]
        by_cases h : n = 0
        · simp [h]
        · rw [if_neg h, if_neg h, natDigitsCore_acc, natDigitsCore_acc g2,
            ih (n / 10) (Nat.div_lt_self (Nat.pos_of_ne_zero h) (by norm_num)) g1 g2
              (by omega) (by omega)]

lemma digitCh_spec (d : Nat) (h : d < 10) :
    isDigitCh (digitCh d) = true ∧ digitVal (digitCh d) = d := by
  interval_cases d <;> exact ⟨by decide, by decide⟩

/-- Value read back from a digit list, as `digitsVal?` computes it. -/
def valOfDigits (l : List Char) : Nat :=
  l.foldl (fun a c => a * 10 + digitVal c) 0

lemma valOfDigits_append_digit (l : List Char) (c : Char) :
    valOfDigits (l ++ [c]) = valOfDigits l * 10 + digitVal c := by
  simp [valOfDigits]

lemma natDigits_step (n : Nat) (h : n ≠ 0) :
    natDigitsCore (n + 1) n [] =
      natDigitsCore (n / 10 + 1) (n / 10) [] ++ [digitCh (n % 10)] := by
  have hd : n / 10 < n := Nat.div_lt_self (Nat.pos_of_ne_zero h) (by norm_num)
  calc natDigitsCore (n + 1) n []
      = natDigitsCore n (n / 10) [digitCh (n % 10)] := by
        simp only [natDigitsCore, if_neg h]
    _ = natDigitsCore n (n / 10) [] ++ [digitCh (n % 10)] := natDigitsCore_acc _ _ _
    _ = natDigitsCore (n / 10 + 1) (n / 10) [] ++ [digitCh (n % 10)] := by
        cases n with
        | zero => exact absurd rfl h
        | succ m => rw [natDigitsCore_fuel (Nat.succ m / 10) (m + 1) (Nat.succ m / 10 + 1) (by omega) (by omega)]

lemma natDigitsCore_spec (n : Nat) :
    (∀ c ∈ natDigitsCore (n + 1) n [], isDigitCh c = true) ∧
      valOfDigits (natDigitsCore (n + 1) n []) = n ∧
      (n ≠ 0 → natDigitsCore (n + 1) n [] ≠ []) := by
  induction n using Nat.strong_induction_on with
  | _ n ih =>
    by_cases h : n = 0
    · subst h
      refine ⟨by simp [natDigitsCore], by simp [natDigitsCore, valOfDigits], by simp⟩
    · obtain ⟨ihall, ihval, _⟩ := ih (n / 10) (Nat.div_lt_self (Nat.pos_of_ne_zero h) (by norm_num))
      rw [natDigits_step n h]
      obtain ⟨hdig, hdval⟩ := digitCh_spec (n % 10) (Nat.mod_lt n (by norm_num))
      refine ⟨?_, ?_, by simp⟩
      · intro c hc
        rcases List.mem_append.mp hc with hc | hc
        · exact ihall c hc
        · simp at hc
          subst hc
          exact hdig
      · rw [valOfDigits_append_digit, ihval, hdval]
        omega

lemma natDigits_spec (n : Nat) :
    (∀ c ∈ natDigits n, isDigitCh c = true) ∧ valOfDigits (natDigits n) = n ∧
      natDigits n ≠ [] := by
  unfold natDigits
  by_cases h : n = 0
  · subst h
    exact ⟨by decide, by decide, by decide⟩
  · obtain ⟨h1, h2, h3⟩ := natDigitsCore_spec n
    rw [if_neg h]
    exact ⟨h1, h2, h3 h⟩

lemma digitsVal?_natDigits (n : Nat) : digitsVal? (natDigits n) = some n := by
  obtain ⟨h1, h2, h3⟩ := natDigits_spec n
  unfold digitsVal?
  rw [if_neg h3, if_pos (by rw [List.all_eq_true]; exact h1)]
  exact congrArg some h2

lemma isDigitCh_bounds (c : Char) (h : isDigitCh c = true) :
    48 ≤ c.toNat ∧ c.toNat ≤ 57 := by
  unfold isDigitCh at h
  rw [Bool.and_eq_true, decide_eq_true_iff, decide_eq_true_iff] at h
  exact h

lemma isDigitCh_not_space (c : Char) (h : isDigitCh c = true) : pySpace c = false := by
  obtain ⟨hl, _⟩ := isDigitCh_bounds c h
  have h1 : c ≠ ' ' := fun e => by subst e; exact absurd hl (by decide)
  have h2 : c ≠ '\t' := fun e => by subst e; exact absurd hl (by decide)
  have h3 : c ≠ '\n' := fun e => by subst e; exact absurd hl (by decide)
  have h4 : c ≠ '\r' := fun e => by subst e; exact absurd hl (by decide)
  have h5 : c ≠ '\x0b' := fun e => by subst e; exact absurd hl (by decide)
  have h6 : c ≠ '\x0c' := fun e => by subst e; exact absurd hl (by decide)
  unfold pySpace
  simp only [Bool.or_eq_false_iff, beq_eq_false_iff_ne, ne_eq]
  exact ⟨⟨⟨⟨⟨h1, h2⟩, h3⟩, h4⟩, h5⟩, h6⟩

lemma isDigitCh_ne_signs (c : Char) (h : isDigitCh c = true) :
    c ≠ '-' ∧ c ≠ '+' ∧ c ≠ ':' ∧ c ≠ '\n' ∧ c ≠ '\r' := by
  obtain ⟨hl, hr⟩ := isDigitCh_bounds c h
  refine ⟨?_, ?_, ?_, ?_, ?_⟩ <;> (intro e; subst e; simp at hl hr)

lemma pyInt?_of_digits (l : List Char) (hne : l ≠ [])
    (hall : ∀ c ∈ l, isDigitCh c = true) :
    pyInt? ⟨l⟩ = some ((valOfDigits l : Int)) := by
  have hstrip : pyStrip l = l :=
    pyStrip_of_no_space l (fun c hc => isDigitCh_not_space c (hall c hc))
  obtain ⟨c, cs, rfl⟩ : ∃ c cs, l = c :: cs := by
    cases l with
    | nil => exact absurd rfl hne
    | cons c cs => exact ⟨c, cs, rfl⟩
  obtain ⟨hm, hp, _, _, _⟩ := isDigitCh_ne_signs c (hall c (by simp))
  unfold pyInt?
  simp only [hstrip, List.headD_cons, if_neg hm, if_neg hp]
  unfold digitsVal?
  rw [if_neg (by simp), if_pos (by rw [List.all_eq_true]; exact hall)]
  rfl

lemma pyInt?_natRepr (n : Nat) : pyInt? (natRepr n) = some ((n : Int)) := by
  obtain ⟨h1, h2, h3⟩ := natDigits_spec n
  unfold natRepr
  rw [pyInt?_of_digits _ h3 h1, h2]

lemma intRepr_data (i : Int) :
    (intRepr i).data = if i < 0 then '-' :: natDigits (-i).toNat else natDigits i.toNat := by
  unfold intRepr
  by_cases h : i < 0
  · rw [if_pos h, if_pos h]
    exact String.data_append _ _
  · rw [if_neg h, if_neg h]
    rfl

lemma pyInt?_intRepr (i : Int) : pyInt? ⟨(intRepr i).data⟩ = some i := by
  rw [intRepr_data]
  by_cases h : i < 0
  · rw [if_pos h]
    obtain ⟨h1, h2, h3⟩ := natDigits_spec (-i).toNat
    have hstrip : pyStrip ('-' :: natDigits (-i).toNat) = '-' :: natDigits (-i).toNat := by
      refine pyStrip_of_no_space _ ?_
      intro c hc
      rcases List.mem_cons.mp hc with rfl | hc
      · decide
      · exact isDigitCh_not_space c (h1 c hc)
    have hv : digitsVal? (natDigits (-i).toNat) = some (-i).toNat :=
      digitsVal?_natDigits _
    unfold pyInt?
    simp only [hstrip, List.headD_cons, List.tail_cons, if_pos]
    simp [hv]
    omega
  · rw [if_neg h]
    have := pyInt?_natRepr i.toNat
    unfold natRepr at this
    rw [this]
    congr 1
    omega

lemma intRepr_no_colon (i : Int) : ∀ c ∈ (intRepr i).data, c ≠ ':' := by
  rw [intRepr_data]
  by_cases h : i < 0
  · rw [if_pos h]
    intro c hc
    rcases List.mem_cons.mp hc with rfl | hc
    · decide
    · exact (isDigitCh_ne_signs c ((natDigits_spec _).1 c hc)).2.2.1
  · rw [if_neg h]
    intro c hc
    exact (isDigitCh_ne_signs c ((natDigits_spec _).1 c hc)).2.2.1

/-! ## Lemmas about line splitting and the label scan -/

lemma pyLinesRaw_append (a b : List Char) :
    pyLinesRaw (a ++ '\n' :: b) = pyLinesRaw a ++ pyLinesRaw b := by
  unfold pyLinesRaw
  rw [pySplitChar_append, List.flatMap_append]

lemma pyLinesRaw_single (l : List Char) (hn : '\n' ∉ l) (hr : '\r' ∉ l) :
    pyLinesRaw l = [l] := by
  unfold pyLinesRaw
  rw [pySplitChar_of_not_mem _ _ hn]
  simp [pySplitChar_of_not_mem _ _ hr]

lemma filterMap_stripFilter_append (a b : List (List Char)) :
    (a ++ b).filterMap stripFilter = a.filterMap stripFilter ++ b.filterMap stripFilter :=
  List.filterMap_append a b stripFilter

lemma scanLine_updated_eq (st : ScanState) (l : List Char)
    (h : pyStartsWith l ("UpdatedAt:").data = false) :
    (scanLine st l).updated_at = st.updated_at := by
  unfold scanLine
  by_cases h1 : pyStartsWith l ("Assignee:").data
  · simp [h1]
  · simp only [h1, Bool.false_eq_true, if_false, h, if_false]
    by_cases h3 : pyStartsWith l ("DueHour:").data <;> simp [h3]

lemma scan_updated_invariant (lines : List (List Char)) :
    ∀ st : ScanState, (∀ l ∈ lines, pyStartsWith l ("UpdatedAt:").data = false) →
      (lines.foldl scanLine st).updated_at = st.updated_at := by
  induction lines with
  | nil => intro st _; rfl
  | cons l ls ih =>
    intro st h
    rw [List.foldl_cons, ih _ (fun x hx => h x (List.mem_cons_of_mem _ hx)),
      scanLine_updated_eq st l (h l (by simp))]

/-! ## Lemmas about the shared parsing loop -/

lemma mem_keys_dinsert {α : Type} (k : Int) (v : α) (m : List (Int × α)) (i : Int) :
    i ∈ (dinsert k v m).map Prod.fst ↔ i = k ∨ i ∈ m.map Prod.fst := by
  induction m with
  | nil => simp [dinsert, eq_comm]
  | cons p rest ih =>
    obtain ⟨k2, v2⟩ := p
    by_cases h : k2 = k
    · subst h
      simp [dinsert]
    · simp [dinsert, h, ih]
      tauto

/-- The error entry contributed by one record of the parsing loop. -/
def batchErr {α β : Type} (skip : α → Bool) (prs : α → Except String β) (r : α) :
    Option (α × String) :=
  if skip r then none
  else
    match prs r with
    | .ok _ => none
    | .error e => some (r, e)

/-- The map component of one iteration of the parsing loop. -/
def mapStep {α β : Type} (skip : α → Bool) (prs : α → Except String β)
    (key : β → Int) (m : List (Int × β)) (r : α) : List (Int × β) :=
  if skip r then m
  else
    match prs r with
    | .ok b => dinsert (key b) b m
    | .error _ => m

lemma batchStep_parts {α β : Type} (skip : α → Bool) (prs : α → Except String β)
    (key : β → Int) (acc : List (Int × β) × List (α × String)) (r : α) :
    batchStep skip prs key acc r =
      (mapStep skip prs key acc.1 r,
        acc.2 ++ ((batchErr skip prs r).map (fun p => [p])).getD []) := by
  unfold batchStep mapStep batchErr
  by_cases hs : skip r
  · simp [hs]
  · cases hp : prs r with
    | ok b => simp [hs, hp]
    | error e => simp [hs, hp]

lemma parseBatch_foldl {α β : Type} (skip : α → Bool) (prs : α → Except String β)
    (key : β → Int) (rs : List α) :
    ∀ (m : List (Int × β)) (e : List (α × String)),
      rs.foldl (batchStep skip prs key) (m, e) =
        (rs.foldl (mapStep skip prs key) m, e ++ rs.filterMap (batchErr skip prs)) := by
  induction rs with
  | nil => intro m e; simp
  | cons r rest ih =>
    intro m e
    rw [List.foldl_cons, batchStep_parts, ih, List.foldl_cons, List.filterMap_cons]
    cases hb : batchErr skip prs r with
    | none => simp
    | some p => simp

lemma parseBatch_eq {α β : Type} (skip : α → Bool) (prs : α → Except String β)
    (key : β → Int) (rs : List α) :
    parseBatch skip prs key rs =
      (rs.foldl (mapStep skip prs key) [], rs.filterMap (batchErr skip prs)) := by
  unfold parseBatch
  rw [parseBatch_foldl]
  simp

lemma mapFold_keys {α β : Type} (skip : α → Bool) (prs : α → Except String β)
    (key : β → Int) (rs : List α) :
    ∀ (m : List (Int × β)) (i : Int),
      i ∈ (rs.foldl (mapStep skip prs key) m).map Prod.fst →
        i ∈ m.map Prod.fst ∨
          ∃ r ∈ rs, skip r = false ∧ ∃ b, prs r = .ok b ∧ key b = i := by
  induction rs with
  | nil => intro m i h; exact Or.inl h
  | cons r rest ih =>
    intro m i h
    rw [List.foldl_cons] at h
    rcases ih _ i h with hm | ⟨r2, hr2, h3⟩
    · unfold mapStep at hm
      by_cases hs : skip r
      · rw [if_pos hs] at hm
        exact Or.inl hm
      · rw [if_neg hs] at hm
        cases hp : prs r with
        | ok b =>
          rw [hp] at hm
          rcases (mem_keys_dinsert _ _ _ _).mp hm with rfl | hm2
          · exact Or.inr ⟨r, by simp, by simp [hs], b, hp, rfl⟩
          · exact Or.inl hm2
        | error e =>
          rw [hp] at hm
          exact Or.inl hm
    · exact Or.inr ⟨r2, List.mem_cons_of_mem _ hr2, h3⟩

/-- A successfully parsed work package carries the raw record's id. -/
lemma parse_wp_record_id (r : RawWP) (t : Task) (h : parse_wp_record r = .ok t) :
    r.id = some t.wp_id := by
  unfold parse_wp_record at h
  cases hid : r.id with
  | none =>
    rw [hid] at h
    exact absurd h (by simp [throw, throwThe, MonadExceptOf.throw])
  | some i =>
    rw [hid] at h
    dsimp only [] at h
    suffices hs : t.wp_id = i by rw [hs]
    by_cases hd : pyTruthy r.dueDate
    · rw [if_pos hd] at h
      simp only [pure, Except.pure, Except.map, Except.bind, Except.ok.injEq] at h
      cases h
      rfl
    · rw [if_neg hd] at h
      by_cases ht : 'T' ∈ r.createdAt.data
      · rw [if_pos ht] at h
        cases hsp : pySplitChar 'T' r.createdAt.data with
        | nil => exact absurd hsp (pySplitChar_ne_nil _ _)
        | cons d rest =>
          cases rest with
          | nil =>
            rw [hsp] at h
            exact absurd h
              (by simp [throw, throwThe, MonadExceptOf.throw, Except.map, Except.bind])
          | cons t2 rest2 =>
            cases rest2 with
            | nil =>
              rw [hsp] at h
              simp only [pure, Except.pure, Except.map, Except.bind,
                Except.ok.injEq] at h
              cases h
              rfl
            | cons t3 rest3 =>
              rw [hsp] at h
              exact absurd h
                (by simp [throw, throwThe, MonadExceptOf.throw, Except.map, Except.bind])
      · rw [if_neg ht] at h
        simp only [pure, Except.pure, Except.map, Except.bind, Except.ok.injEq] at h
        cases h
        rfl

/-! ## Lemmas about the action loops -/

lemma runActs_cons_some (f : Int → Option (Option String × List ApiCall)) (i : Int)
    (is : List Int) (rs : List (Option String × List ApiCall))
    (h : runActs f (i :: is) = some rs) :
    ∃ r rest, f i = some r ∧ runActs f is = some rest ∧ rs = r :: rest := by
  rw [runActs] at h
  simp only [Option.bind_eq_bind, Option.bind_eq_some, Option.pure_def,
    Option.some_inj] at h
  obtain ⟨r, hr, rest, hrest, heq⟩ := h
  exact ⟨r, rest, hr, hrest, heq.symm⟩

lemma runActs_length (f : Int → Option (Option String × List ApiCall)) :
    ∀ (is : List Int) (rs : List (Option String × List ApiCall)),
      runActs f is = some rs → rs.length = is.length := by
  intro is
  induction is with
  | nil =>
    intro rs h
    rw [runActs] at h
    cases h
    rfl
  | cons i it ih =>
    intro rs h
    obtain ⟨r, rest, _, hrest, rfl⟩ := runActs_cons_some f i it rs h
    simp [ih rest hrest]

lemma runActs_get? (f : Int → Option (Option String × List ApiCall)) :
    ∀ (is : List Int) (rs : List (Option String × List ApiCall)),
      runActs f is = some rs → ∀ (k : Nat) (i : Int), is.get? k = some i →
        ∃ r, f i = some r ∧ rs.get? k = some r := by
  intro is
  induction is with
  | nil => intro rs _ k i hk; simp at hk
  | cons j it ih =>
    intro rs h k i hk
    obtain ⟨r, rest, hr, hrest, rfl⟩ := runActs_cons_some f j it rs h
    cases k with
    | zero =>
      simp only [List.get?] at hk
      cases hk
      exact ⟨r, hr, rfl⟩
    | succ k2 =>
      simp only [List.get?] at hk ⊢
      exact ih rest hrest k2 i hk

/-! ## Destructuring the engine -/

lemma synchronize_wps_eq (wps : List (Int × Task)) (evs : List (Int × Event))
    (svc : Service) (res : List (List Int) × List (List (Option String)) × List ApiCall)
    (h : synchronize_wps wps evs svc = some res) :
    ∃ cs ds us,
      runActs (createStep wps svc)
        (pySetDiff (pySet (wps.map Prod.fst)) (pySet (evs.map Prod.fst))) = some cs ∧
      runActs (deleteStep evs svc)
        (pySetDiff (pySet (evs.map Prod.fst)) (pySet (wps.map Prod.fst))) = some ds ∧
      runActs (updateStep wps evs svc)
        (pySetInter (pySet (evs.map Prod.fst)) (pySet (wps.map Prod.fst))) = some us ∧
      res = ([pySetDiff (pySet (wps.map Prod.fst)) (pySet (evs.map Prod.fst)),
              pySetDiff (pySet (evs.map Prod.fst)) (pySet (wps.map Prod.fst)),
              pySetInter (pySet (evs.map Prod.fst)) (pySet (wps.map Prod.fst))],
             ([cs.map Prod.fst, ds.map Prod.fst, us.map Prod.fst],
              cs.flatMap Prod.snd ++ ds.flatMap Prod.snd ++ us.flatMap Prod.snd)) := by
  unfold synchronize_wps at h
  simp only [Option.bind_eq_bind, Option.bind_eq_some, Option.pure_def,
    Option.some_inj] at h
  obtain ⟨cs, hcs, ds, hds, us, hus, heq⟩ := h
  exact ⟨cs, ds, us, hcs, hds, hus, heq.symm⟩

lemma toFinset_pySet (l : List Int) : (pySet l).toFinset = l.toFinset := by
  ext i
  simp [pySet, List.mem_dedup]

lemma toFinset_pySetDiff (a b : List Int) :
    (pySetDiff a b).toFinset = a.toFinset \ b.toFinset := by
  ext i
  simp [pySetDiff, List.mem_filter]

lemma toFinset_pySetInter (a b : List Int) :
    (pySetInter a b).toFinset = a.toFinset ∩ b.toFinset := by
  ext i
  simp [pySetInter, List.mem_filter]

/-! ## Claim C1 -/

/-- C1: for every pair of canonical mappings handed to `synchronize_wps`
(tasks keyed by id, events keyed by wp_id), writing T and E for the two key
sets, a completed pass returns exactly `to_create = T \ E`,
`to_delete = E \ T` and `may_update = T ∩ E`; the three sets are pairwise
disjoint and their union is `T ∪ E`, so no id is omitted. -/
theorem c1_reconciliation_partition (wps : List (Int × Task)) (evs : List (Int × Event))
    (svc : Service) (res : List (List Int) × List (List (Option String)) × List ApiCall)
    (h : synchronize_wps wps evs svc = some res) :
    ∃ c d u, res.1 = [c, d, u] ∧
      c.toFinset = (wps.map Prod.fst).toFinset \ (evs.map Prod.fst).toFinset ∧
      d.toFinset = (evs.map Prod.fst).toFinset \ (wps.map Prod.fst).toFinset ∧
      u.toFinset = (wps.map Prod.fst).toFinset ∩ (evs.map Prod.fst).toFinset ∧
      c.toFinset ∩ d.toFinset = ∅ ∧ c.toFinset ∩ u.toFinset = ∅ ∧
      d.toFinset ∩ u.toFinset = ∅ ∧
      c.toFinset ∪ d.toFinset ∪ u.toFinset =
        (wps.map Prod.fst).toFinset ∪ (evs.map Prod.fst).toFinset := by
  obtain ⟨cs, ds, us, _, _, _, heq⟩ := synchronize_wps_eq wps evs svc res h
  subst heq
  refine ⟨_, _, _, rfl, ?_, ?_, ?_, ?_, ?_, ?_, ?_⟩
  · rw [toFinset_pySetDiff, toFinset_pySet, toFinset_pySet]
  · rw [toFinset_pySetDiff, toFinset_pySet, toFinset_pySet]
  · rw [toFinset_pySetInter, toFinset_pySet, toFinset_pySet]
    exact Finset.inter_comm _ _
  · rw [toFinset_pySetDiff, toFinset_pySetDiff, toFinset_pySet, toFinset_pySet]
    ext i
    simp only [Finset.mem_inter, Finset.mem_sdiff, Finset.not_mem_empty, iff_false]
    tauto
  · rw [toFinset_pySetDiff, toFinset_pySetInter, toFinset_pySet, toFinset_pySet]
    ext i
    simp only [Finset.mem_inter, Finset.mem_sdiff, Finset.not_mem_empty, iff_false]
    tauto
  · rw [toFinset_pySetDiff, toFinset_pySetInter, toFinset_pySet, toFinset_pySet]
    ext i
    simp only [Finset.mem_inter, Finset.mem_sdiff, Finset.not_mem_empty, iff_false]
    tauto
  · rw [toFinset_pySetDiff, toFinset_pySetDiff, toFinset_pySetInter,
      toFinset_pySet, toFinset_pySet]
    ext i
    simp only [Finset.mem_union, Finset.mem_inter, Finset.mem_sdiff]
    tauto

/-! ## Concrete fixtures used by the witnesses -/

/-- A small concrete task with a valid due date. -/
def demoTask (i : Int) (u : String) : Task :=
  { wp_id := i, subject := "A", description := "", parent := "No parent",
    assignee := "B", due_date := "2025-01-02", due_hour := "03:00:00",
    updated_at := u }

/-- A small concrete event. -/
def demoEvent (i : Int) (u : Option String) : Event :=
  { event_id := "e", wp_id := i, subject := "A", assignee := none,
    updated_at := u, due_date := none, due_hour := none }

/-- A service whose calls all succeed. -/
def okService : Service :=
  { insertRes := fun _ => none, deleteRes := fun _ => none,
    updateRes := fun _ _ => none }

def demoWps : List (Int × Task) := [(1, demoTask 1 ("t1")), (2, demoTask 2 ("t1"))]

def demoEvs : List (Int × Event) := [(1, demoEvent 1 (some ("t1"))), (3, demoEvent 3 none)]

/-- The event body the demo task 2 maps to. -/
def demoBody : EventBody :=
  { summary := "2:A",
    description := "\nParent: No parent\nAssignee: B\nUpdatedAt: t1\nDueHour: 03:00:00",
    startDT := ⟨2025, 1, 2, 3, 0, 0, 0⟩, endDT := ⟨2025, 1, 2, 4, 0, 0, 0⟩,
    remindersUseDefault := false,
    reminderOverrides := [(("popup"), 1440), (("popup"), 30)] }

/-- The full result of the demo pass. -/
def demoRes : List (List Int) × List (List (Option String)) × List ApiCall :=
  ([[2], [3], [1]],
   ([[none], [none], [none]],
    [ApiCall.insert demoBody, ApiCall.delete ("e")]))

/-- Witness for C1: the demo pass completes and the partition facts hold. -/
theorem c1_reconciliation_partition_witness :
    synchronize_wps demoWps demoEvs okService = some demoRes ∧
    (∃ c d u, demoRes.1 = [c, d, u] ∧
      c.toFinset = (demoWps.map Prod.fst).toFinset \ (demoEvs.map Prod.fst).toFinset ∧
      d.toFinset = (demoEvs.map Prod.fst).toFinset \ (demoWps.map Prod.fst).toFinset ∧
      u.toFinset = (demoWps.map Prod.fst).toFinset ∩ (demoEvs.map Prod.fst).toFinset ∧
      c.toFinset ∩ d.toFinset = ∅ ∧ c.toFinset ∩ u.toFinset = ∅ ∧
      d.toFinset ∩ u.toFinset = ∅ ∧
      c.toFinset ∪ d.toFinset ∪ u.toFinset =
        (demoWps.map Prod.fst).toFinset ∪ (demoEvs.map Prod.fst).toFinset) :=
  ⟨by decide, c1_reconciliation_partition demoWps demoEvs okService demoRes (by decide)⟩

/-! ## Claim C2 -/

/-- C2: for an id in `may_update`, the calendar update call is issued if and
only if the task's `updated_at` token differs (Python `!=`, i.e. plain
inequality between the string and the event's optional decoded token); with
equal tokens nothing is done at all — the fields other than `updated_at`
are arbitrary, so any other difference is ignored. -/
theorem c2_update_iff_token_differs (wp : Task) (ev : Event) (svc : Service) :
    (some wp.updated_at = ev.updated_at →
      may_update_action wp ev svc = some (none, [])) ∧
    (∀ r : Option String × List ApiCall, may_update_action wp ev svc = some r →
      ((∃ b, ApiCall.update ev.event_id b ∈ r.2) ↔
        some wp.updated_at ≠ ev.updated_at)) := by
  constructor
  · intro he
    unfold may_update_action
    rw [if_neg (not_not_intro he)]
    rfl
  · intro r hr
    unfold may_update_action at hr
    by_cases he : some wp.updated_at = ev.updated_at
    · rw [if_neg (not_not_intro he)] at hr
      simp only [Option.pure_def, Option.some_inj] at hr
      subst hr
      constructor
      · rintro ⟨b, hb⟩
        simp at hb
      · intro hne
        exact absurd he hne
    · rw [if_pos he] at hr
      simp only [Option.bind_eq_bind, Option.bind_eq_some, Option.pure_def,
        Option.some_inj] at hr
      obtain ⟨b, _, heq⟩ := hr
      subst heq
      constructor
      · intro _
        exact he
      · intro _
        exact ⟨b, by simp⟩

/-- The body the differing-token demo task maps to. -/
def demoBody3 : EventBody :=
  { summary := "3:A",
    description := "\nParent: No parent\nAssignee: B\nUpdatedAt: t2\nDueHour: 03:00:00",
    startDT := ⟨2025, 1, 2, 3, 0, 0, 0⟩, endDT := ⟨2025, 1, 2, 4, 0, 0, 0⟩,
    remindersUseDefault := false,
    reminderOverrides := [(("popup"), 1440), (("popup"), 30)] }

/-- Witness for C2: with equal tokens (and a differing assignee) nothing
happens; with differing tokens the update call is issued. -/
theorem c2_update_iff_token_differs_witness :
    (some (demoTask 1 ("t1")).updated_at = (demoEvent 1 (some ("t1"))).updated_at ∧
      may_update_action (demoTask 1 ("t1")) (demoEvent 1 (some ("t1"))) okService =
        some (none, [])) ∧
    (may_update_action (demoTask 3 ("t2")) (demoEvent 3 none) okService =
        some (none, [ApiCall.update ("e") demoBody3]) ∧
      ((∃ b, ApiCall.update (demoEvent 3 none).event_id b ∈
          [ApiCall.update ("e") demoBody3]) ↔
        some (demoTask 3 ("t2")).updated_at ≠ (demoEvent 3 none).updated_at)) :=
  ⟨⟨by decide, (c2_update_iff_token_differs _ _ okService).1 (by decide)⟩,
   ⟨by decide,
    (c2_update_iff_token_differs (demoTask 3 ("t2")) (demoEvent 3 none) okService).2
      (none, [ApiCall.update ("e") demoBody3]) (by decide)⟩⟩

/-! ## Claim C9 -/

/-- C9: an event record whose description has no line starting with
`UpdatedAt:` decodes to `updated_at = none`, which is unequal to every
task's token; so for any task matched with it the update call is issued on
every pass, whether or not anything changed. -/
theorem c9_missing_token_always_updates (raw : RawEvent) (ev : Event)
    (hl : ∀ l ∈ pyLines raw.description, pyStartsWith l ("UpdatedAt:").data = false)
    (h : parse_event_record raw = .ok ev) :
    ev.updated_at = none ∧
      ∀ (wp : Task) (b : EventBody) (svc : Service), wp_to_event wp = some b →
        may_update_action wp ev svc =
          some (svc.updateRes ev.event_id b, [ApiCall.update ev.event_id b]) := by
  have hscan : ((pyLines raw.description).foldl scanLine ⟨none, none, none⟩).updated_at = none :=
    scan_updated_invariant (pyLines raw.description) ⟨none, none, none⟩ hl
  have hupd : ev.updated_at = none := by
    unfold parse_event_record at h
    by_cases hc : ':' ∈ raw.summary.data
    · rw [if_neg (not_not_intro hc)] at h
      dsimp only [] at h
      cases hp : pyInt? ⟨pyStrip (raw.summary.data.takeWhile (fun c => c ≠ ':'))⟩ with
      | none =>
        rw [hp] at h
        exact absurd h (by simp [throw, throwThe, MonadExceptOf.throw])
      | some wp_id =>
        rw [hp] at h
        dsimp only [] at h
        cases hre : raw.rend with
        | dt o =>
          cases o with
          | none =>
            rw [hre] at h
            exact absurd h (by simp [throw, throwThe, MonadExceptOf.throw])
          | some d =>
            rw [hre] at h
            simp only [pure, Except.pure, Except.ok.injEq] at h
            rw [← h]
            exact hscan
        | dateOnly s =>
          rw [hre] at h
          simp only [pure, Except.pure, Except.ok.injEq] at h
          rw [← h]
          exact hscan
        | absent =>
          rw [hre] at h
          simp only [pure, Except.pure, Except.ok.injEq] at h
          rw [← h]
          exact hscan
    · rw [if_pos hc] at h
      exact absurd h (by simp [throw, throwThe, MonadExceptOf.throw])
  refine ⟨hupd, ?_⟩
  intro wp b svc hb
  unfold may_update_action
  rw [if_pos (by rw [hupd]; exact Option.some_ne_none _)]
  rw [hb]
  rfl

/-- The raw record used by the C9 witness. -/
def c9Raw : RawEvent :=
  { event_id := "e2", summary := "3:S", description := "hello\nAssignee: X",
    rend := RawEnd.dateOnly ("2025-01-01") }

/-- The canonical event the C9 witness record parses to. -/
def c9Ev : Event :=
  { event_id := "e2", wp_id := 3, subject := "S", assignee := some ("X"),
    updated_at := none, due_date := some ("2025-01-01"),
    due_hour := some ("00:00:00") }

/-- Witness for C9. -/
theorem c9_missing_token_always_updates_witness :
    (∀ l ∈ pyLines c9Raw.description, pyStartsWith l ("UpdatedAt:").data = false) ∧
    parse_event_record c9Raw = .ok c9Ev ∧
    (c9Ev.updated_at = none ∧
      ∀ (wp : Task) (b : EventBody) (svc : Service), wp_to_event wp = some b →
        may_update_action wp c9Ev svc =
          some (svc.updateRes c9Ev.event_id b, [ApiCall.update c9Ev.event_id b])) :=
  ⟨by decide, by rfl,
   c9_missing_token_always_updates c9Raw c9Ev (by decide) (by rfl)⟩

/-! ## Characterizing one iteration of each action loop -/

lemma createStep_some (wps : List (Int × Task)) (svc : Service) (i : Int)
    (r : Option String × List ApiCall) (h : createStep wps svc i = some r) :
    ∃ wp b, dlookup i wps = some wp ∧ wp_to_event wp = some b ∧
      r = (svc.insertRes b, [ApiCall.insert b]) := by
  unfold createStep at h
  simp only [Option.bind_eq_bind, Option.bind_eq_some] at h
  obtain ⟨wp, hwp, hact⟩ := h
  unfold to_create_action at hact
  simp only [Option.bind_eq_bind, Option.bind_eq_some, Option.pure_def,
    Option.some_inj] at hact
  obtain ⟨b, hb, heq⟩ := hact
  exact ⟨wp, b, hwp, hb, heq.symm⟩

lemma deleteStep_some (evs : List (Int × Event)) (svc : Service) (i : Int)
    (r : Option String × List ApiCall) (h : deleteStep evs svc i = some r) :
    ∃ ev, dlookup i evs = some ev ∧
      r = (svc.deleteRes ev.event_id, [ApiCall.delete ev.event_id]) := by
  unfold deleteStep at h
  simp only [Option.bind_eq_bind, Option.bind_eq_some, Option.pure_def,
    Option.some_inj] at h
  obtain ⟨ev, hev, heq⟩ := h
  exact ⟨ev, hev, heq.symm⟩

lemma updateStep_some (wps : List (Int × Task)) (evs : List (Int × Event))
    (svc : Service) (i : Int) (r : Option String × List ApiCall)
    (h : updateStep wps evs svc i = some r) :
    ∃ wp ev, dlookup i wps = some wp ∧ dlookup i evs = some ev ∧
      ((some wp.updated_at = ev.updated_at ∧ r = (none, [])) ∨
       (some wp.updated_at ≠ ev.updated_at ∧
         ∃ b, wp_to_event wp = some b ∧
           r = (svc.updateRes ev.event_id b, [ApiCall.update ev.event_id b]))) := by
  unfold updateStep at h
  simp only [Option.bind_eq_bind, Option.bind_eq_some] at h
  obtain ⟨wp, hwp, ev, hev, hact⟩ := h
  refine ⟨wp, ev, hwp, hev, ?_⟩
  unfold may_update_action at hact
  by_cases he : some wp.updated_at = ev.updated_at
  · rw [if_neg (not_not_intro he)] at hact
    simp only [Option.pure_def, Option.some_inj] at hact
    exact Or.inl ⟨he, hact.symm⟩
  · rw [if_pos he] at hact
    simp only [Option.bind_eq_bind, Option.bind_eq_some, Option.pure_def,
      Option.some_inj] at hact
    obtain ⟨b, hb, heq⟩ := hact
    exact Or.inr ⟨he, b, hb, heq.symm⟩

/-! ## Claim C7 -/

/-- C7: in a completed pass, each id of each category got exactly its own
service call: the call appears in the trace, and the id's entry in that
category's error list is exactly the service's response to that call (a
string on failure).  Since this holds for every position independently of
the other ids' responses, one failing item never prevents the others from
being processed. -/
theorem c7_failure_isolation (wps : List (Int × Task)) (evs : List (Int × Event))
    (svc : Service) (res : List (List Int) × List (List (Option String)) × List ApiCall)
    (h : synchronize_wps wps evs svc = some res) :
    ∃ c d u e0 e1 e2 tr,
      res = ([c, d, u], ([e0, e1, e2], tr)) ∧
      (∀ (k : Nat) (i : Int), c.get? k = some i →
        ∃ wp b, dlookup i wps = some wp ∧ wp_to_event wp = some b ∧
          ApiCall.insert b ∈ tr ∧ e0.get? k = some (svc.insertRes b)) ∧
      (∀ (k : Nat) (i : Int), d.get? k = some i →
        ∃ ev, dlookup i evs = some ev ∧ ApiCall.delete ev.event_id ∈ tr ∧
          e1.get? k = some (svc.deleteRes ev.event_id)) ∧
      (∀ (k : Nat) (i : Int), u.get? k = some i →
        ∃ wp ev, dlookup i wps = some wp ∧ dlookup i evs = some ev ∧
          ((some wp.updated_at = ev.updated_at ∧ e2.get? k = some none) ∨
           (some wp.updated_at ≠ ev.updated_at ∧
             ∃ b, wp_to_event wp = some b ∧ ApiCall.update ev.event_id b ∈ tr ∧
               e2.get? k = some (svc.updateRes ev.event_id b)))) := by
  obtain ⟨cs, ds, us, hcs, hds, hus, heq⟩ := synchronize_wps_eq wps evs svc res h
  subst heq
  refine ⟨_, _, _, _, _, _, _, rfl, ?_, ?_, ?_⟩
  · intro k i hk
    obtain ⟨r, hr, hget⟩ := runActs_get? _ _ _ hcs k i hk
    obtain ⟨wp, b, hwp, hb, rfl⟩ := createStep_some wps svc i r hr
    refine ⟨wp, b, hwp, hb, ?_, ?_⟩
    · refine List.mem_append_left _ (List.mem_append_left _ ?_)
      exact List.mem_flatMap.mpr ⟨_, List.get?_mem hget, by simp⟩
    · rw [List.get?_map, hget]
      rfl
  · intro k i hk
    obtain ⟨r, hr, hget⟩ := runActs_get? _ _ _ hds k i hk
    obtain ⟨ev, hev, rfl⟩ := deleteStep_some evs svc i r hr
    refine ⟨ev, hev, ?_, ?_⟩
    · refine List.mem_append_left _ (List.mem_append_right _ ?_)
      exact List.mem_flatMap.mpr ⟨_, List.get?_mem hget, by simp⟩
    · rw [List.get?_map, hget]
      rfl
  · intro k i hk
    obtain ⟨r, hr, hget⟩ := runActs_get? _ _ _ hus k i hk
    obtain ⟨wp, ev, hwp, hev, hcase⟩ := updateStep_some wps evs svc i r hr
    refine ⟨wp, ev, hwp, hev, ?_⟩
    rcases hcase with ⟨he, rfl⟩ | ⟨he, b, hb, rfl⟩
    · refine Or.inl ⟨he, ?_⟩
      rw [List.get?_map, hget]
      rfl
    · refine Or.inr ⟨he, b, hb, ?_, ?_⟩
      · refine List.mem_append_right _ ?_
        exact List.mem_flatMap.mpr ⟨_, List.get?_mem hget, by simp⟩
      · rw [List.get?_map, hget]
        rfl

/-- A service whose insert calls all fail with a fixed message. -/
def failInsertService : Service :=
  { insertRes := fun _ => some ("insert failed"), deleteRes := fun _ => none,
    updateRes := fun _ _ => none }

/-- The demo pass under the failing-insert service. -/
def demoFailRes : List (List Int) × List (List (Option String)) × List ApiCall :=
  ([[2], [3], [1]],
   ([[some ("insert failed")], [none], [none]],
    [ApiCall.insert demoBody, ApiCall.delete ("e")]))

/-- Witness for C7: the insert for id 2 fails, its entry carries the
message, and the delete for id 3 was still issued. -/
theorem c7_failure_isolation_witness :
    synchronize_wps demoWps demoEvs failInsertService = some demoFailRes ∧
    (∃ c d u e0 e1 e2 tr,
      demoFailRes = ([c, d, u], ([e0, e1, e2], tr)) ∧
      (∀ (k : Nat) (i : Int), c.get? k = some i →
        ∃ wp b, dlookup i demoWps = some wp ∧ wp_to_event wp = some b ∧
          ApiCall.insert b ∈ tr ∧ e0.get? k = some (failInsertService.insertRes b)) ∧
      (∀ (k : Nat) (i : Int), d.get? k = some i →
        ∃ ev, dlookup i demoEvs = some ev ∧ ApiCall.delete ev.event_id ∈ tr ∧
          e1.get? k = some (failInsertService.deleteRes ev.event_id)) ∧
      (∀ (k : Nat) (i : Int), u.get? k = some i →
        ∃ wp ev, dlookup i demoWps = some wp ∧ dlookup i demoEvs = some ev ∧
          ((some wp.updated_at = ev.updated_at ∧ e2.get? k = some none) ∨
           (some wp.updated_at ≠ ev.updated_at ∧
             ∃ b, wp_to_event wp = some b ∧ ApiCall.update ev.event_id b ∈ tr ∧
               e2.get? k = some (failInsertService.updateRes ev.event_id b))))) :=
  ⟨by decide, c7_failure_isolation demoWps demoEvs failInsertService demoFailRes (by decide)⟩

/-! ## Claim C10 -/

/-- C10: in a completed pass, each of the three error lists has exactly one
entry per id of its action set, positionally in iteration order; the entry
is exactly the service response for that id's call (`none` on success, a
string message on failure) and, for `may_update`, `none` when no update was
needed.  In particular the lists' lengths equal the three sets'
cardinalities. -/
theorem c10_error_lists_parallel (wps : List (Int × Task)) (evs : List (Int × Event))
    (svc : Service) (res : List (List Int) × List (List (Option String)) × List ApiCall)
    (h : synchronize_wps wps evs svc = some res) :
    ∃ c d u e0 e1 e2 tr,
      res = ([c, d, u], ([e0, e1, e2], tr)) ∧
      e0.length = c.length ∧ e1.length = d.length ∧ e2.length = u.length ∧
      (∀ (k : Nat) (i : Int), c.get? k = some i →
        e0.get? k = (dlookup i wps).bind
          (fun wp => (wp_to_event wp).map (fun b => svc.insertRes b))) ∧
      (∀ (k : Nat) (i : Int), d.get? k = some i →
        e1.get? k = (dlookup i evs).map (fun ev => svc.deleteRes ev.event_id)) ∧
      (∀ (k : Nat) (i : Int), u.get? k = some i →
        ∃ wp ev, dlookup i wps = some wp ∧ dlookup i evs = some ev ∧
          ((some wp.updated_at = ev.updated_at → e2.get? k = some none) ∧
           (some wp.updated_at ≠ ev.updated_at →
             ∃ b, wp_to_event wp = some b ∧
               e2.get? k = some (svc.updateRes ev.event_id b)))) := by
  obtain ⟨cs, ds, us, hcs, hds, hus, heq⟩ := synchronize_wps_eq wps evs svc res h
  subst heq
  refine ⟨_, _, _, _, _, _, _, rfl, ?_, ?_, ?_, ?_, ?_, ?_⟩
  · rw [List.length_map]
    exact runActs_length _ _ _ hcs
  · rw [List.length_map]
    exact runActs_length _ _ _ hds
  · rw [List.length_map]
    exact runActs_length _ _ _ hus
  · intro k i hk
    obtain ⟨r, hr, hget⟩ := runActs_get? _ _ _ hcs k i hk
    obtain ⟨wp, b, hwp, hb, rfl⟩ := createStep_some wps svc i r hr
    rw [List.get?_map, hget, hwp]
    simp [hb]
  · intro k i hk
    obtain ⟨r, hr, hget⟩ := runActs_get? _ _ _ hds k i hk
    obtain ⟨ev, hev, rfl⟩ := deleteStep_some evs svc i r hr
    rw [List.get?_map, hget, hev]
    rfl
  · intro k i hk
    obtain ⟨r, hr, hget⟩ := runActs_get? _ _ _ hus k i hk
    obtain ⟨wp, ev, hwp, hev, hcase⟩ := updateStep_some wps evs svc i r hr
    refine ⟨wp, ev, hwp, hev, ?_, ?_⟩
    · intro he
      rcases hcase with ⟨_, rfl⟩ | ⟨hne, _, _, _⟩
      · rw [List.get?_map, hget]
        rfl
      · exact absurd he hne
    · intro hne
      rcases hcase with ⟨he, _⟩ | ⟨_, b, hb, rfl⟩
      · exact absurd he hne
      · refine ⟨b, hb, ?_⟩
        rw [List.get?_map, hget]
        rfl

/-- Witness for C10 at the failing-insert demo pass. -/
theorem c10_error_lists_parallel_witness :
    synchronize_wps demoWps demoEvs failInsertService = some demoFailRes ∧
    (∃ c d u e0 e1 e2 tr,
      demoFailRes = ([c, d, u], ([e0, e1, e2], tr)) ∧
      e0.length = c.length ∧ e1.length = d.length ∧ e2.length = u.length ∧
      (∀ (k : Nat) (i : Int), c.get? k = some i →
        e0.get? k = (dlookup i demoWps).bind
          (fun wp => (wp_to_event wp).map (fun b => failInsertService.insertRes b))) ∧
      (∀ (k : Nat) (i : Int), d.get? k = some i →
        e1.get? k = (dlookup i demoEvs).map
          (fun ev => failInsertService.deleteRes ev.event_id)) ∧
      (∀ (k : Nat) (i : Int), u.get? k = some i →
        ∃ wp ev, dlookup i demoWps = some wp ∧ dlookup i demoEvs = some ev ∧
          ((some wp.updated_at = ev.updated_at → e2.get? k = some none) ∧
           (some wp.updated_at ≠ ev.updated_at →
             ∃ b, wp_to_event wp = some b ∧
               e2.get? k = some (failInsertService.updateRes ev.event_id b))))) :=
  ⟨by decide,
   c10_error_lists_parallel demoWps demoEvs failInsertService demoFailRes (by decide)⟩

/-! ## Claim C5 -/

/-- C5: a raw task record with an absent raw description or a first
description line `!!!` is skipped by `parse_workpackages`; provided no
other record of the snapshot carries the same id (ids are unique within a
snapshot), that id is absent from the canonical task mapping and therefore
never appears in `to_create` nor in `may_update` of the same pass,
whatever the record's other fields. -/
theorem c5_suppressed_task_excluded (rs : List RawWP) (r : RawWP) (i : Int)
    (hr : r ∈ rs) (hskip : parse_wp_skip r = true) (hid : r.id = some i)
    (huniq : ∀ r2 ∈ rs, r2.id = some i → r2 = r) :
    i ∉ (parse_workpackages rs).1.map Prod.fst ∧
    ∀ (evs : List (Int × Event)) (svc : Service)
      (res : List (List Int) × List (List (Option String)) × List ApiCall),
      synchronize_wps (parse_workpackages rs).1 evs svc = some res →
      ∀ c d u, res.1 = [c, d, u] → i ∉ c ∧ i ∉ u := by
  have hkey : i ∉ (parse_workpackages rs).1.map Prod.fst := by
    intro hmem
    unfold parse_workpackages at hmem
    rw [parseBatch_eq] at hmem
    rcases mapFold_keys _ _ _ rs [] i hmem with h0 | ⟨r2, hr2, hsk, b, hok, hkb⟩
    · simp at h0
    · have hid2 : r2.id = some i := by rw [parse_wp_record_id r2 b hok, hkb]
      have he : r2 = r := huniq r2 hr2 hid2
      rw [he, hskip] at hsk
      exact absurd hsk (by simp)
  refine ⟨hkey, ?_⟩
  intro evs svc res h c d u hres
  obtain ⟨cs, ds, us, _, _, _, heq⟩ :=
    synchronize_wps_eq (parse_workpackages rs).1 evs svc res h
  subst heq
  simp only [List.cons.injEq, and_true] at hres
  obtain ⟨hc, hd, hu⟩ := hres
  constructor
  · intro hic
    rw [← hc] at hic
    unfold pySetDiff at hic
    have h1 : i ∈ pySet ((parse_workpackages rs).1.map Prod.fst) :=
      (List.mem_filter.mp hic).1
    exact hkey ((List.mem_dedup).mp h1)
  · intro hiu
    rw [← hu] at hiu
    unfold pySetInter at hiu
    have h1 := (List.mem_filter.mp hiu).2
    rw [decide_eq_true_iff] at h1
    exact hkey ((List.mem_dedup).mp h1)

/-- A suppressed raw record (first description line is the marker). -/
def c5BadRaw : RawWP :=
  { id := some 5, subject := "S", description_raw := some ("!!!\nrest"),
    description_html := "h", parent_href := none, parent_title := none,
    assignee_title := none, dueDate := some ("2025-01-02"),
    customField19 := some ("03:00:00"), createdAt := "", updatedAt := "t1" }

/-- A normal raw record with a different id. -/
def c5GoodRaw : RawWP :=
  { id := some 1, subject := "S", description_raw := some ("ok"),
    description_html := "h", parent_href := none, parent_title := none,
    assignee_title := none, dueDate := some ("2025-01-02"),
    customField19 := some ("03:00:00"), createdAt := "", updatedAt := "t1" }

def c5Snapshot : List RawWP := [c5GoodRaw, c5BadRaw]

/-- Witness for C5. -/
theorem c5_suppressed_task_excluded_witness :
    (c5BadRaw ∈ c5Snapshot ∧ parse_wp_skip c5BadRaw = true ∧
      c5BadRaw.id = some 5 ∧
      (∀ r2 ∈ c5Snapshot, r2.id = some 5 → r2 = c5BadRaw)) ∧
    ((5 : Int) ∉ (parse_workpackages c5Snapshot).1.map Prod.fst ∧
    ∀ (evs : List (Int × Event)) (svc : Service)
      (res : List (List Int) × List (List (Option String)) × List ApiCall),
      synchronize_wps (parse_workpackages c5Snapshot).1 evs svc = some res →
      ∀ c d u, res.1 = [c, d, u] → (5 : Int) ∉ c ∧ (5 : Int) ∉ u) :=
  ⟨⟨by decide, by decide, by decide, by decide⟩,
   c5_suppressed_task_excluded c5Snapshot c5BadRaw 5 (by decide) (by decide)
     (by decide) (by decide)⟩

/-! ## Claim C6 -/

lemma mkDatetime?_of_valid (y mo d : Int) (hy1 : 1 ≤ y) (hy2 : y ≤ 9999)
    (hm1 : 1 ≤ mo) (hm2 : mo ≤ 12) (hd1 : 1 ≤ d) (hd2 : d ≤ daysInMonth y mo)
    (h mi s : Int) (hh1 : 0 ≤ h) (hh2 : h ≤ 23) (hmi1 : 0 ≤ mi) (hmi2 : mi ≤ 59)
    (hs1 : 0 ≤ s) (hs2 : s ≤ 59) :
    mkDatetime? y mo d h mi s 0 = some ⟨y, mo, d, h, mi, s, 0⟩ := by
  unfold mkDatetime?
  rw [if_pos]
  unfold validDatetime
  simp only [Bool.and_eq_true, decide_eq_true_iff]
  refine ⟨⟨⟨⟨⟨⟨⟨⟨⟨⟨⟨⟨?_, ?_⟩, ?_⟩, ?_⟩, ?_⟩, ?_⟩, ?_⟩, ?_⟩, ?_⟩, ?_⟩, ?_⟩, ?_⟩, ?_⟩ <;> omega

/-- C6: on a valid `YYYY-MM-DD` date string, the normalizer combined with
`"09"`, `"09:30"`, `"09:30:15"` and `""` yields 09:00:00, 09:30:00,
09:30:15 and midnight respectively, and fractional seconds are truncated
to their integer part. -/
theorem c6_datetime_normalizer (D : String) (y mo d : Int)
    (hparts : (pySplitChar '-' D.data).mapM (fun l => pyInt? ⟨l⟩) = some [y, mo, d])
    (hy1 : 1 ≤ y) (hy2 : y ≤ 9999) (hm1 : 1 ≤ mo) (hm2 : mo ≤ 12)
    (hd1 : 1 ≤ d) (hd2 : d ≤ daysInMonth y mo) :
    str_to_date D ("09") = some ⟨y, mo, d, 9, 0, 0, 0⟩ ∧
    str_to_date D ("09:30") = some ⟨y, mo, d, 9, 30, 0, 0⟩ ∧
    str_to_date D ("09:30:15") = some ⟨y, mo, d, 9, 30, 15, 0⟩ ∧
    str_to_date D ("") = some ⟨y, mo, d, 0, 0, 0, 0⟩ ∧
    str_to_date D ("09:30:15.75") = some ⟨y, mo, d, 9, 30, 15, 0⟩ := by
  have key : ∀ (t : String) (h mi s : Int), hour_parts_of t = some [h, mi, s] →
      0 ≤ h → h ≤ 23 → 0 ≤ mi → mi ≤ 59 → 0 ≤ s → s ≤ 59 →
      str_to_date D t = some ⟨y, mo, d, h, mi, s, 0⟩ := by
    intro t h mi s ht hh1 hh2 hmi1 hmi2 hs1 hs2
    unfold str_to_date
    rw [hparts, ht]
    simp only [Option.bind_eq_bind, Option.some_bind, List.cons_append,
      List.nil_append]
    show mkDatetime? y mo d h mi s 0 = some ⟨y, mo, d, h, mi, s, 0⟩
    exact mkDatetime?_of_valid y mo d hy1 hy2 hm1 hm2 hd1 hd2 h mi s
      hh1 hh2 hmi1 hmi2 hs1 hs2
  refine ⟨?_, ?_, ?_, ?_, ?_⟩
  · exact key ("09") 9 0 0 (by decide) (by decide) (by decide) (by decide)
      (by decide) (by decide) (by decide)
  · exact key ("09:30") 9 30 0 (by decide) (by decide) (by decide) (by decide)
      (by decide) (by decide) (by decide)
  · exact key ("09:30:15") 9 30 15 (by decide) (by decide) (by decide) (by decide)
      (by decide) (by decide) (by decide)
  · exact key ("") 0 0 0 (by decide) (by decide) (by decide) (by decide)
      (by decide) (by decide) (by decide)
  · exact key ("09:30:15.75") 9 30 15 (by decide) (by decide) (by decide)
      (by decide) (by decide) (by decide) (by decide)

/-- Witness for C6 at the date 2025-05-23. -/
theorem c6_datetime_normalizer_witness :
    ((pySplitChar '-' ("2025-05-23").data).mapM (fun l => pyInt? ⟨l⟩) =
        some [2025, 5, 23] ∧ (23 : Int) ≤ daysInMonth 2025 5) ∧
    (str_to_date ("2025-05-23") ("09") = some ⟨2025, 5, 23, 9, 0, 0, 0⟩ ∧
     str_to_date ("2025-05-23") ("09:30") = some ⟨2025, 5, 23, 9, 30, 0, 0⟩ ∧
     str_to_date ("2025-05-23") ("09:30:15") = some ⟨2025, 5, 23, 9, 30, 15, 0⟩ ∧
     str_to_date ("2025-05-23") ("") = some ⟨2025, 5, 23, 0, 0, 0, 0⟩ ∧
     str_to_date ("2025-05-23") ("09:30:15.75") = some ⟨2025, 5, 23, 9, 30, 15, 0⟩) :=
  ⟨⟨by decide, by decide⟩,
   c6_datetime_normalizer ("2025-05-23") 2025 5 23 (by decide) (by decide)
     (by decide) (by decide) (by decide) (by decide) (by decide)⟩

/-! ## Claim C4 -/

lemma parseBatch_isolate {α β : Type} (skip : α → Bool) (prs : α → Except String β)
    (key : β → Int) (l1 l2 : List α) (b : α) (m : String)
    (hs : skip b = false) (he : prs b = .error m) :
    (parseBatch skip prs key (l1 ++ b :: l2)).1 =
      (parseBatch skip prs key (l1 ++ l2)).1 ∧
    (parseBatch skip prs key (l1 ++ b :: l2)).2 =
      (parseBatch skip prs key l1).2 ++ (b, m) :: (parseBatch skip prs key l2).2 := by
  rw [parseBatch_eq, parseBatch_eq, parseBatch_eq, parseBatch_eq]
  have hb2 : batchErr skip prs b = some (b, m) := by
    unfold batchErr
    rw [hs, he]
    simp
  dsimp only
  constructor
  · rw [List.foldl_append, List.foldl_append, List.foldl_cons]
    congr 1
    unfold mapStep
    rw [hs, he]
    simp
  · simp [List.filterMap_append, List.filterMap_cons, hb2]

/-- C4: in both parsers, a record whose parse raises is excluded from the
canonical mapping, the pair (record, error) is appended to the error list
at its position, and the remaining records are parsed as if the bad one
were absent — the exception is never re-raised and never aborts the
batch. -/
theorem c4_per_record_isolation (l1 l2 : List RawWP) (b : RawWP) (m : String)
    (hbskip : parse_wp_skip b = false) (hberr : parse_wp_record b = .error m)
    (l3 l4 : List RawEvent) (be : RawEvent) (me : String)
    (hee : parse_event_record be = .error me) :
    ((parse_workpackages (l1 ++ b :: l2)).1 = (parse_workpackages (l1 ++ l2)).1 ∧
     (parse_workpackages (l1 ++ b :: l2)).2 =
       (parse_workpackages l1).2 ++ (b, m) :: (parse_workpackages l2).2) ∧
    ((parse_events (l3 ++ be :: l4)).1 = (parse_events (l3 ++ l4)).1 ∧
     (parse_events (l3 ++ be :: l4)).2 =
       (parse_events l3).2 ++ (be, me) :: (parse_events l4).2) := by
  constructor
  · exact parseBatch_isolate parse_wp_skip parse_wp_record Task.wp_id l1 l2 b m
      hbskip hberr
  · exact parseBatch_isolate (fun _ => false) parse_event_record Event.wp_id l3 l4 be me
      rfl hee

/-- A raw work package whose parse raises (its id key is missing). -/
def c4BadRaw : RawWP :=
  { id := none, subject := "S", description_raw := some ("ok"),
    description_html := "h", parent_href := none, parent_title := none,
    assignee_title := none, dueDate := some ("2025-01-02"),
    customField19 := some ("03:00:00"), createdAt := "", updatedAt := "t1" }

/-- A raw event whose summary has no separator. -/
def c4BadEvent : RawEvent :=
  { event_id := "e9", summary := "no separator here", description := "",
    rend := RawEnd.absent }

/-- Witness for C4: one bad record among good ones in each parser. -/
theorem c4_per_record_isolation_witness :
    (parse_wp_skip c4BadRaw = false ∧
      parse_wp_record c4BadRaw = .error ("KeyError: id") ∧
      parse_event_record c4BadEvent = .error ("ValueError: Summary inválido")) ∧
    (((parse_workpackages ([c5GoodRaw] ++ c4BadRaw :: [])).1 =
        (parse_workpackages ([c5GoodRaw] ++ [])).1 ∧
      (parse_workpackages ([c5GoodRaw] ++ c4BadRaw :: [])).2 =
        (parse_workpackages [c5GoodRaw]).2 ++
          (c4BadRaw, ("KeyError: id")) :: (parse_workpackages []).2) ∧
     ((parse_events ([] ++ c4BadEvent :: [c9Raw])).1 =
        (parse_events ([] ++ [c9Raw])).1 ∧
      (parse_events ([] ++ c4BadEvent :: [c9Raw])).2 =
        (parse_events []).2 ++
          (c4BadEvent, ("ValueError: Summary inválido")) :: (parse_events [c9Raw]).2)) :=
  ⟨⟨by decide, by rfl, by rfl⟩,
   c4_per_record_isolation [c5GoodRaw] [] c4BadRaw ("KeyError: id") (by decide)
     (by rfl) [] [c9Raw] c4BadEvent ("ValueError: Summary inválido") (by rfl)⟩

/-! ## Claim C8 -/

/-- C8 counterexample: at a concrete pass, `save_logs` appends a
timestamp-only row followed by one row per category consisting of the
label and the entries; the category row does not contain the pass
timestamp, so it is not a (timestamp, label, entries) tuple. -/
theorem c8_counterexample :
    save_logs [[2], [3], [1]] [[some ("boom")], [none], [none]] ("TS-2025") =
      some ([[("TS-2025")],
             [("to_create_errors"), ("boom")],
             [("to_delete_errors"), ("None")],
             [("may_update_errors"), ("None")]],
            [[("TS-2025")],
             [("to_create"), ("2")],
             [("to_delete"), ("3")],
             [("may_update"), ("1")]]) ∧
    ("TS-2025") ∉ [("to_create"), ("2")] :=
  ⟨by rfl, by decide⟩

/-- C8 (amended): per pass, `save_logs` appends to each destination one
payload of four rows — a row holding the pass timestamp followed by one
row per category, each made of the category label followed by the
stringified entries (error entries for the errors page, ids for the
actions page); the timestamp occupies its own row rather than appearing in
each category row. -/
theorem c8_audit_rows (c d u : List Int) (e0 e1 e2 : List (Option String))
    (ts : String) :
    save_logs [c, d, u] [e0, e1, e2] ts =
      some ([[ts],
             ("to_create_errors") :: e0.map pyStrOpt,
             ("to_delete_errors") :: e1.map pyStrOpt,
             ("may_update_errors") :: e2.map pyStrOpt],
            [[ts],
             ("to_create") :: c.map intRepr,
             ("to_delete") :: d.map intRepr,
             ("may_update") :: u.map intRepr]) := by
  rfl

/-! ## Helper lemmas for the round-trip claim -/

lemma mk_data (s : String) : String.mk s.data = s := rfl

lemma intRepr_no_space (i : Int) : ∀ c ∈ (intRepr i).data, pySpace c = false := by
  rw [intRepr_data]
  by_cases h : i < 0
  · rw [if_pos h]
    intro c hc
    rcases List.mem_cons.mp hc with rfl | hc
    · decide
    · exact isDigitCh_not_space c ((natDigits_spec _).1 c hc)
  · rw [if_neg h]
    intro c hc
    exact isDigitCh_not_space c ((natDigits_spec _).1 c hc)

lemma takeWhile_append_stop (p : Char → Bool) (B : List Char) (x : Char)
    (hx : p x = false) :
    ∀ A : List Char, (∀ c ∈ A, p c = true) →
      (A ++ x :: B).takeWhile p = A ∧ (A ++ x :: B).dropWhile p = x :: B := by
  intro A
  induction A with
  | nil =>
    intro _
    simp [List.takeWhile_cons, List.dropWhile_cons, hx]
  | cons c cs ih =>
    intro hA
    have hc : p c = true := hA c (by simp)
    have ihh := ih (fun c2 hc2 => hA c2 (List.mem_cons_of_mem _ hc2))
    simp only [List.cons_append, List.takeWhile_cons, List.dropWhile_cons, hc,
      if_true, ihh.1, ihh.2]
    simp

lemma hasSub_nil_false (lit : List Char) (hlit : lit ≠ []) :
    hasSub lit ([] : List Char) = false := by
  cases lit with
  | nil => exact absurd rfl hlit
  | cons c ct => rfl

lemma label_value (lit : List Char) (v : String) (hlit : lit ≠ [])
    (hv : pyStrip v.data = v.data) (hsub : hasSub lit v.data = false)
    (hhead : lit.headD ' ' ≠ ' ') :
    pyStrip (pyReplace (lit ++ ' ' :: v.data) lit []) = v.data ∧
      pyStrip (pyReplace lit lit []) = [] := by
  constructor
  · have hno : hasSub lit (' ' :: v.data) = false := by
      apply hasSub_cons_false
      · cases lit with
        | nil => exact absurd rfl hlit
        | cons c ct =>
          exact isPrefixOf_ne_head c ' ' ct v.data (by simpa using hhead)
      · exact hsub
    rw [pyReplace_label lit (' ' :: v.data) hlit hno, pyStrip_cons_space _ hv]
  · have h0 := pyReplace_label lit [] hlit (hasSub_nil_false lit hlit)
    rw [List.append_nil] at h0
    rw [h0]
    rfl

lemma stripFilter_label_full (lit : List Char) (v : String) (hlit : lit ≠ [])
    (hh : pySpace (lit.headD ' ') = false) (hv : pyStrip v.data = v.data)
    (hvne : v.data ≠ []) :
    stripFilter (lit ++ ' ' :: v.data) = some (lit ++ ' ' :: v.data) := by
  have h1 := pyStrip_label_line lit v.data hlit hh hv hvne
  unfold stripFilter
  rw [h1, if_neg (by cases lit with | nil => exact absurd rfl hlit | cons c ct => simp)]

lemma stripFilter_label_empty (lit : List Char) (hlit : lit ≠ [])
    (hh : pySpace (lit.headD ' ') = false) (hlits : pyStrip lit = lit) :
    stripFilter (lit ++ [' ']) = some lit := by
  have h1 : pyStrip (lit ++ [' ']) = lit := by
    unfold pyStrip
    have hl : (lit ++ [' ']).dropWhile pySpace = lit ++ [' '] := by
      cases lit with
      | nil => exact absurd rfl hlit
      | cons c t =>
        rw [List.cons_append, List.dropWhile_cons,
          if_neg (by rw [List.headD_cons] at hh; simp [hh])]
    rw [hl]
    unfold dropRightSpaces
    rw [List.reverse_append]
    simp only [List.reverse_cons, List.reverse_nil, List.nil_append,
      List.singleton_append]
    rw [List.dropWhile_cons, if_pos (by decide)]
    have h2 : lit.reverse.dropWhile pySpace = lit.reverse := by
      have hc := congrArg List.reverse ((pyStrip_parts lit hlits).2)
      simp only [dropRightSpaces, List.reverse_reverse] at hc
      exact hc
    rw [h2, List.reverse_reverse]
  unfold stripFilter
  rw [h1, if_neg hlit]

lemma pyLinesRaw_label (lab : String) (v : String)
    (hlab1 : '\n' ∉ lab.data) (hlab2 : '\r' ∉ lab.data)
    (hv1 : '\n' ∉ v.data) (hv2 : '\r' ∉ v.data) :
    pyLinesRaw (lab.data ++ v.data) = [lab.data ++ v.data] := by
  apply pyLinesRaw_single
  · intro hmem
    rcases List.mem_append.mp hmem with hmem | hmem
    · exact hlab1 hmem
    · exact hv1 hmem
  · intro hmem
    rcases List.mem_append.mp hmem with hmem | hmem
    · exact hlab2 hmem
    · exact hv2 hmem

lemma data_eq_nil_str (v : String) (hvd : v.data = []) : v = "" := by
  have h := congrArg String.mk hvd
  rw [mk_data] at h
  exact h

/-- Processing the `Assignee:` label line: it survives the strip filter and
stores exactly the task's assignee. -/
lemma scan_assignee_line (v : String)
    (hv : pyStrip v.data = v.data) (hsub : hasSub ("Assignee:").data v.data = false) :
    ∃ line, stripFilter (("Assignee: ").data ++ v.data) = some line ∧
      ∀ st : ScanState, scanLine st line = { st with assignee := some v } := by
  by_cases hvd : v.data = []
  · have hv0 : v = "" := data_eq_nil_str v hvd
    refine ⟨("Assignee:").data, ?_, ?_⟩
    · rw [hvd, List.append_nil,
        show ("Assignee: ").data = ("Assignee:").data ++ [' '] from rfl]
      exact stripFilter_label_empty _ (by decide) (by decide) (by decide)
    · intro st
      unfold scanLine
      rw [if_pos (by decide)]
      rw [show (⟨pyStrip (pyReplace (("Assignee:").data) (("Assignee:").data) [])⟩ : String) = "" from by decide,
        hv0]
  · refine ⟨("Assignee:").data ++ ' ' :: v.data, ?_, ?_⟩
    · rw [show ("Assignee: ").data ++ v.data = ("Assignee:").data ++ ' ' :: v.data from rfl]
      exact stripFilter_label_full _ v (by decide) (by decide) hv hvd
    · intro st
      unfold scanLine
      rw [if_pos (show pyStartsWith (("Assignee:").data ++ ' ' :: v.data)
            (("Assignee:").data) = true from isPrefixOf_self_append _ _)]
      rw [(label_value ("Assignee:").data v (by decide) hv hsub (by decide)).1,
        mk_data]

/-- Processing the `UpdatedAt:` label line. -/
lemma scan_updated_line (v : String)
    (hv : pyStrip v.data = v.data) (hsub : hasSub ("UpdatedAt:").data v.data = false) :
    ∃ line, stripFilter (("UpdatedAt: ").data ++ v.data) = some line ∧
      ∀ st : ScanState, scanLine st line = { st with updated_at := some v } := by
  by_cases hvd : v.data = []
  · have hv0 : v = "" := data_eq_nil_str v hvd
    refine ⟨("UpdatedAt:").data, ?_, ?_⟩
    · rw [hvd, List.append_nil,
        show ("UpdatedAt: ").data = ("UpdatedAt:").data ++ [' '] from rfl]
      exact stripFilter_label_empty _ (by decide) (by decide) (by decide)
    · intro st
      unfold scanLine
      rw [if_neg (by decide), if_pos (by decide)]
      rw [show (⟨pyStrip (pyReplace (("UpdatedAt:").data) (("UpdatedAt:").data) [])⟩ : String) = "" from by decide,
        hv0]
  · refine ⟨("UpdatedAt:").data ++ ' ' :: v.data, ?_, ?_⟩
    · rw [show ("UpdatedAt: ").data ++ v.data = ("UpdatedAt:").data ++ ' ' :: v.data from rfl]
      exact stripFilter_label_full _ v (by decide) (by decide) hv hvd
    · intro st
      unfold scanLine
      rw [if_neg (by simp [pyStartsWith, List.isPrefixOf_cons₂])]
      rw [if_pos (show pyStartsWith (("UpdatedAt:").data ++ ' ' :: v.data)
            (("UpdatedAt:").data) = true from isPrefixOf_self_append _ _)]
      rw [(label_value ("UpdatedAt:").data v (by decide) hv hsub (by decide)).1,
        mk_data]

/-- Processing the `DueHour:` label line. -/
lemma scan_duehour_line (v : String)
    (hv : pyStrip v.data = v.data) (hsub : hasSub ("DueHour:").data v.data = false) :
    ∃ line, stripFilter (("DueHour: ").data ++ v.data) = some line ∧
      ∀ st : ScanState, scanLine st line = { st with due_hour := some v } := by
  by_cases hvd : v.data = []
  · have hv0 : v = "" := data_eq_nil_str v hvd
    refine ⟨("DueHour:").data, ?_, ?_⟩
    · rw [hvd, List.append_nil,
        show ("DueHour: ").data = ("DueHour:").data ++ [' '] from rfl]
      exact stripFilter_label_empty _ (by decide) (by decide) (by decide)
    · intro st
      unfold scanLine
      rw [if_neg (by decide), if_neg (by decide), if_pos (by decide)]
      rw [show (⟨pyStrip (pyReplace (("DueHour:").data) (("DueHour:").data) [])⟩ : String) = "" from by decide,
        hv0]
  · refine ⟨("DueHour:").data ++ ' ' :: v.data, ?_, ?_⟩
    · rw [show ("DueHour: ").data ++ v.data = ("DueHour:").data ++ ' ' :: v.data from rfl]
      exact stripFilter_label_full _ v (by decide) (by decide) hv hvd
    · intro st
      unfold scanLine
      rw [if_neg (by simp [pyStartsWith, List.isPrefixOf_cons₂]),
        if_neg (by simp [pyStartsWith, List.isPrefixOf_cons₂])]
      rw [if_pos (show pyStartsWith (("DueHour:").data ++ ' ' :: v.data)
            (("DueHour:").data) = true from isPrefixOf_self_append _ _)]
      rw [(label_value ("DueHour:").data v (by decide) hv hsub (by decide)).1,
        mk_data]

/-! ## Claim C3 -/

/-- C3 (amended): mapping a canonical task to an event body and re-parsing
the stored body recovers `wp_id`, `subject`, `assignee`, `updated_at` and
`due_hour` provided the fields survive the label channel unchanged: the
subject and the three label values carry no surrounding whitespace, the
label values contain no line break and do not contain their own label
text, and `due_hour` is non-empty (an empty label value is replaced by the
event's end time on re-parse). -/
theorem c3_roundtrip_amended (wp : Task) (body : EventBody) (eid : String)
    (hb : wp_to_event wp = some body)
    (hsub : pyStripS wp.subject = wp.subject)
    (ha1 : pyStripS wp.assignee = wp.assignee)
    (ha2 : hasSubS wp.assignee ("Assignee:") = false)
    (ha3 : '\n' ∉ wp.assignee.data) (ha4 : '\r' ∉ wp.assignee.data)
    (hu1 : pyStripS wp.updated_at = wp.updated_at)
    (hu2 : hasSubS wp.updated_at ("UpdatedAt:") = false)
    (hu3 : '\n' ∉ wp.updated_at.data) (hu4 : '\r' ∉ wp.updated_at.data)
    (hh0 : wp.due_hour ≠ "")
    (hh1 : pyStripS wp.due_hour = wp.due_hour)
    (hh2 : hasSubS wp.due_hour ("DueHour:") = false)
    (hh3 : '\n' ∉ wp.due_hour.data) (hh4 : '\r' ∉ wp.due_hour.data) :
    ∃ ev, parse_event_record (event_body_to_raw eid body) = .ok ev ∧
      ev.wp_id = wp.wp_id ∧ ev.subject = wp.subject ∧
      ev.assignee = some wp.assignee ∧ ev.updated_at = some wp.updated_at ∧
      ev.due_hour = some wp.due_hour := by
  unfold wp_to_event at hb
  simp only [Option.bind_eq_bind, Option.bind_eq_some, Option.pure_def,
    Option.some_inj] at hb
  obtain ⟨start, hstart, fin, hfin, hbody⟩ := hb
  subst hbody
  have ha1d : pyStrip wp.assignee.data = wp.assignee.data := congrArg String.data ha1
  have hu1d : pyStrip wp.updated_at.data = wp.updated_at.data := congrArg String.data hu1
  have hh1d : pyStrip wp.due_hour.data = wp.due_hour.data := congrArg String.data hh1
  have hsubd : pyStrip wp.subject.data = wp.subject.data := congrArg String.data hsub
  obtain ⟨lineA, hLA, hSA⟩ := scan_assignee_line wp.assignee ha1d ha2
  obtain ⟨lineU, hLU, hSU⟩ := scan_updated_line wp.updated_at hu1d hu2
  obtain ⟨lineH, hLH, hSH⟩ := scan_duehour_line wp.due_hour hh1d hh2
  have hcolon : (":" : String).data = [':'] := rfl
  have hsummary : (intRepr wp.wp_id ++ ":" ++ wp.subject).data =
      (intRepr wp.wp_id).data ++ ':' :: wp.subject.data := by
    rw [String.data_append, String.data_append, hcolon]
    simp [List.append_assoc]
  have hnl : ("\n" : String).data = ['\n'] := rfl
  have hdesc : (wp.description ++ "\n" ++ ("Parent: " ++ wp.parent) ++ "\n" ++
        ("Assignee: " ++ wp.assignee) ++ "\n" ++ ("UpdatedAt: " ++ wp.updated_at) ++
        "\n" ++ ("DueHour: " ++ wp.due_hour)).data =
      wp.description.data ++ '\n' ::
        ((("Parent: ").data ++ wp.parent.data) ++ '\n' ::
          ((("Assignee: ").data ++ wp.assignee.data) ++ '\n' ::
            ((("UpdatedAt: ").data ++ wp.updated_at.data) ++ '\n' ::
              (("DueHour: ").data ++ wp.due_hour.data)))) := by
    simp only [String.data_append, hnl]
    simp [List.append_assoc]
  have hlines : pyLines (wp.description ++ "\n" ++ ("Parent: " ++ wp.parent) ++ "\n" ++
        ("Assignee: " ++ wp.assignee) ++ "\n" ++ ("UpdatedAt: " ++ wp.updated_at) ++
        "\n" ++ ("DueHour: " ++ wp.due_hour)) =
      ((pyLinesRaw wp.description.data).filterMap stripFilter ++
        (pyLinesRaw (("Parent: ").data ++ wp.parent.data)).filterMap stripFilter) ++
        [lineA, lineU, lineH] := by
    have hfm : ∀ (x l : List Char), stripFilter x = some l →
        List.filterMap stripFilter [x] = [l] := by
      intro x l hx
      simp [List.filterMap_cons, hx]
    unfold pyLines
    rw [hdesc, pyLinesRaw_append, pyLinesRaw_append, pyLinesRaw_append,
      pyLinesRaw_append,
      pyLinesRaw_label ("Assignee: ") wp.assignee (by decide) (by decide) ha3 ha4,
      pyLinesRaw_label ("UpdatedAt: ") wp.updated_at (by decide) (by decide) hu3 hu4,
      pyLinesRaw_label ("DueHour: ") wp.due_hour (by decide) (by decide) hh3 hh4,
      List.filterMap_append, List.filterMap_append, List.filterMap_append,
      List.filterMap_append, hfm _ _ hLA, hfm _ _ hLU, hfm _ _ hLH]
    simp [List.append_assoc]
  have hscan : ((pyLines (wp.description ++ "\n" ++ ("Parent: " ++ wp.parent) ++ "\n" ++
        ("Assignee: " ++ wp.assignee) ++ "\n" ++ ("UpdatedAt: " ++ wp.updated_at) ++
        "\n" ++ ("DueHour: " ++ wp.due_hour))).foldl scanLine ⟨none, none, none⟩) =
      ⟨some wp.assignee, some wp.updated_at, some wp.due_hour⟩ := by
    rw [hlines, List.foldl_append]
    simp only [List.foldl_cons, List.foldl_nil]
    rw [hSA, hSU, hSH]
  have hmem : ':' ∈ (intRepr wp.wp_id ++ ":" ++ wp.subject).data := by
    rw [hsummary]
    simp
  have htw := takeWhile_append_stop (fun c => decide (c ≠ ':')) wp.subject.data ':'
    (by decide) (intRepr wp.wp_id).data
    (fun c hc => by simpa using intRepr_no_colon wp.wp_id c hc)
  have hstripInt : pyStrip (intRepr wp.wp_id).data = (intRepr wp.wp_id).data :=
    pyStrip_of_no_space _ (intRepr_no_space _)
  refine ⟨{ event_id := eid, wp_id := wp.wp_id, subject := wp.subject,
            assignee := some wp.assignee, updated_at := some wp.updated_at,
            due_date := some (fmtDate fin), due_hour := some wp.due_hour },
          ?_, rfl, rfl, rfl, rfl, rfl⟩
  unfold parse_event_record event_body_to_raw
  dsimp only
  rw [if_neg (not_not_intro hmem)]
  rw [hsummary, htw.1, htw.2, hstripInt, pyInt?_intRepr]
  dsimp only
  rw [hscan]
  dsimp only
  rw [List.tail_cons, hsubd, mk_data]
  have hors : pyOrS (some wp.due_hour) (fmtTime fin) = wp.due_hour := by
    simp [pyOrS, hh0]
  rw [hors]
  rfl

/-- The task refuting the unconditional round-trip: its assignee carries a
trailing space, which the Event Parser's strip discards. -/
def c3Task : Task :=
  { wp_id := 7, subject := "A", description := "", parent := "No parent",
    assignee := "a ", due_date := "2025-01-02", due_hour := "03:00:00",
    updated_at := "t1" }

/-- C3 counterexample: mapping `c3Task` and re-parsing the stored body
yields assignee `"a"`, not the task's `"a "` — the round-trip law fails as
stated, on an otherwise well-formed canonical task. -/
theorem c3_roundtrip_counterexample :
    (wp_to_event c3Task).map
        (fun b => parse_event_record (event_body_to_raw ("e1") b)) =
      some (.ok { event_id := "e1", wp_id := 7, subject := "A",
                  assignee := some ("a"), updated_at := some ("t1"),
                  due_date := some ("2025-01-02"), due_hour := some ("03:00:00") }) ∧
    c3Task.assignee ≠ "a" :=
  ⟨by rfl, by decide⟩

/-- The body the C3 witness task maps to. -/
def c3Body : EventBody :=
  { summary := "1:A",
    description := "\nParent: No parent\nAssignee: B\nUpdatedAt: t1\nDueHour: 03:00:00",
    startDT := ⟨2025, 1, 2, 3, 0, 0, 0⟩, endDT := ⟨2025, 1, 2, 4, 0, 0, 0⟩,
    remindersUseDefault := false,
    reminderOverrides := [(("popup"), 1440), (("popup"), 30)] }

/-- Witness for the amended C3 at a well-behaved task. -/
theorem c3_roundtrip_amended_witness :
    (wp_to_event (demoTask 1 ("t1")) = some c3Body ∧
      pyStripS (demoTask 1 ("t1")).subject = (demoTask 1 ("t1")).subject ∧
      pyStripS (demoTask 1 ("t1")).assignee = (demoTask 1 ("t1")).assignee ∧
      hasSubS (demoTask 1 ("t1")).assignee ("Assignee:") = false ∧
      '\n' ∉ (demoTask 1 ("t1")).assignee.data ∧
      '\r' ∉ (demoTask 1 ("t1")).assignee.data ∧
      pyStripS (demoTask 1 ("t1")).updated_at = (demoTask 1 ("t1")).updated_at ∧
      hasSubS (demoTask 1 ("t1")).updated_at ("UpdatedAt:") = false ∧
      '\n' ∉ (demoTask 1 ("t1")).updated_at.data ∧
      '\r' ∉ (demoTask 1 ("t1")).updated_at.data ∧
      (demoTask 1 ("t1")).due_hour ≠ "" ∧
      pyStripS (demoTask 1 ("t1")).due_hour = (demoTask 1 ("t1")).due_hour ∧
      hasSubS (demoTask 1 ("t1")).due_hour ("DueHour:") = false ∧
      '\n' ∉ (demoTask 1 ("t1")).due_hour.data ∧
      '\r' ∉ (demoTask 1 ("t1")).due_hour.data) ∧
    (∃ ev, parse_event_record (event_body_to_raw ("e1") c3Body) = .ok ev ∧
      ev.wp_id = (demoTask 1 ("t1")).wp_id ∧
      ev.subject = (demoTask 1 ("t1")).subject ∧
      ev.assignee = some (demoTask 1 ("t1")).assignee ∧
      ev.updated_at = some (demoTask 1 ("t1")).updated_at ∧
      ev.due_hour = some (demoTask 1 ("t1")).due_hour) :=
  ⟨⟨by rfl, by decide, by decide, by decide, by decide, by decide, by decide,
    by decide, by decide, by decide, by decide, by decide, by decide, by decide,
    by decide⟩,
   c3_roundtrip_amended (demoTask 1 ("t1")) c3Body ("e1") (by rfl) (by decide)
     (by decide) (by decide) (by decide) (by decide) (by decide) (by decide)
     (by decide) (by decide) (by decide) (by decide) (by decide) (by decide)
     (by decide)⟩

end CalSync
